import Mathlib

/-!
A shallow embedding of bravado-core's schema-directed marshaling engine
(`bravado_core/marshal.py`) and its format-conversion registry
(`bravado_core/formatter.py`), together with theorems about their behaviour.

Python values are modelled by the inductive type `Val`, Python exceptions by
`PyErr`.  The embedding targets Python 3 semantics (the `six.PY3` branch of the
source, where `long = int`).  The collaborator modules `bravado_core.schema`
and `bravado_core.model` are not part of the embedded sources; their accessor
functions are modelled from the specification's collaborator contracts and are
marked as such in their doc comments.
-/

namespace BravadoCore

/-- A Python `datetime.date`: a calendar date. -/
structure PyDate where
  year : Nat
  month : Nat
  day : Nat
deriving DecidableEq, Repr

/-- A Python `datetime.datetime`, with an optional fixed UTC offset in whole
minutes (`none` models a naive datetime, `some o` an aware datetime whose
tzinfo has utcoffset `o` minutes). -/
structure PyDateTime where
  year : Nat
  month : Nat
  day : Nat
  hour : Nat
  minute : Nat
  second : Nat
  microsecond : Nat
  offset : Option Int
deriving DecidableEq, Repr

/-- The calendar date of a `PyDateTime` (Python's `datetime.date()`). -/
def PyDateTime.date (t : PyDateTime) : PyDate :=
  ⟨t.year, t.month, t.day⟩

/-- A Python value as seen by the marshaling engine: JSON-compatible primitives
(`none`, booleans, integers, floats, strings), sequences, string-keyed
mappings, the temporal types consumed by the built-in formats, and named-model
instances.  `model className attrs` models an instance of the model class
registered under `className`, with `attrs` the name→value attribute mapping
exposed by the value-introspection collaborator (`dir()`/`getattr` in the
source).  Python floats are carried as rationals; the embedded code never
performs float arithmetic on them, it only moves them around. -/
inductive Val where
  | none : Val
  | bool (b : Bool) : Val
  | int (n : Int) : Val
  | float (q : Rat) : Val
  | str (s : String) : Val
  | list (xs : List Val) : Val
  | dict (kvs : List (String × Val)) : Val
  | date (d : PyDate) : Val
  | datetime (t : PyDateTime) : Val
  | model (className : String) (attrs : List (String × Val)) : Val

/-- Python's `value is None` test. -/
def isNone : Val → Bool
  | .none => true
  | _ => false

/-- Modelled from the spec: `isMappingLike(value)` — a runtime capability
check asking whether a value behaves as a string-keyed associative container
(`bravado_core.schema.is_dict_like`, not under `src/`).  Only plain mappings
qualify; model instances are not mapping-like. -/
def is_dict_like : Val → Bool
  | .dict _ => true
  | _ => false

/-- Modelled from the spec: `isSequenceLike(value)` — a runtime capability
check asking whether a value behaves as an ordered container
(`bravado_core.schema.is_list_like`, not under `src/`). -/
def is_list_like : Val → Bool
  | .list _ => true
  | _ => false

/-! ### Decimal digit rendering and parsing

Support for modelling `date.isoformat()` / `datetime.isoformat()` and the
`dateutil.parser.parse` external collaborator on ISO-8601 strings.  A number
is rendered zero-padded to a fixed width, high digit first. -/

/-- The ASCII character of the decimal digit `n % 10`. -/
def digitChar (n : Nat) : Char :=
  Char.ofNat (48 + n % 10)

/-- Is `c` an ASCII decimal digit? -/
def isDigitChar (c : Char) : Bool :=
  decide (48 ≤ c.toNat ∧ c.toNat ≤ 57)

/-- The numeric value of an ASCII decimal digit. -/
def digitVal (c : Char) : Nat :=
  c.toNat - 48

/-- `n` rendered in decimal, zero-padded to exactly `k` digits (high digit
first); digits beyond the width are discarded, as with `"%0kd"` applied to an
in-range number. -/
def padNat : Nat → Nat → List Char
  | 0, _ => []
  | k+1, n => digitChar (n / 10 ^ k) :: padNat k n

/-- Read exactly `k` decimal digits from the front of `cs`, accumulating onto
`acc`; returns the value read and the remaining characters. -/
def readDigits : Nat → Nat → List Char → Option (Nat × List Char)
  | 0, acc, cs => some (acc, cs)
  | _+1, _, [] => Option.none
  | k+1, acc, c :: cs =>
    if isDigitChar c then readDigits k (acc * 10 + digitVal c) cs else Option.none

theorem digitChar_toNat (m : Nat) : (digitChar m).toNat = 48 + m % 10 := by
  have h10 : m % 10 = 0 ∨ m % 10 = 1 ∨ m % 10 = 2 ∨ m % 10 = 3 ∨ m % 10 = 4 ∨
      m % 10 = 5 ∨ m % 10 = 6 ∨ m % 10 = 7 ∨ m % 10 = 8 ∨ m % 10 = 9 := by omega
  rcases h10 with h|h|h|h|h|h|h|h|h|h <;> simp only [digitChar, h] <;> decide

theorem isDigitChar_digitChar (m : Nat) : isDigitChar (digitChar m) = true := by
  have := digitChar_toNat m
  have : m % 10 < 10 := Nat.mod_lt _ (by omega)
  simp only [isDigitChar, digitChar_toNat, decide_eq_true_eq]
  omega

theorem digitVal_digitChar (m : Nat) : digitVal (digitChar m) = m % 10 := by
  simp only [digitVal, digitChar_toNat]
  omega

theorem readDigits_padNat (k : Nat) :
    ∀ (acc n : Nat) (rest : List Char),
      readDigits k acc (padNat k n ++ rest) = some (acc * 10 ^ k + n % 10 ^ k, rest) := by
  induction k with
  | zero =>
    intro acc n rest
    simp [padNat, readDigits, Nat.mod_one]
  | succ k ih =>
    intro acc n rest
    have hmul : n % (10 ^ k * 10) = n % 10 ^ k + 10 ^ k * (n / 10 ^ k % 10) := Nat.mod_mul
    simp only [padNat, List.cons_append, List.append_eq, readDigits, isDigitChar_digitChar,
      if_true, digitVal_digitChar, ih]
    congr 2
    rw [pow_succ, hmul]
    ring

theorem readDigits_padNat_of_lt {k n : Nat} (h : n < 10 ^ k) (rest : List Char) :
    readDigits k 0 (padNat k n ++ rest) = some (n, rest) := by
  rw [readDigits_padNat]
  simp [Nat.mod_eq_of_lt h]

/-! ### ISO-8601 rendering and the `dateutil` parsing collaborator -/

/-- The characters of Python's `date.isoformat()`: `YYYY-MM-DD`. -/
def isoformatDateChars (d : PyDate) : List Char :=
  padNat 4 d.year ++ '-' :: padNat 2 d.month ++ '-' :: padNat 2 d.day

/-- Python's `date.isoformat()`. -/
def isoformatDate (d : PyDate) : String :=
  String.mk (isoformatDateChars d)

/-- The UTC-offset suffix of `datetime.isoformat()`: empty for a naive
datetime, else a sign followed by `HH:MM` of the absolute offset. -/
def offsetChars : Option Int → List Char
  | Option.none => []
  | Option.some o =>
    (if o < 0 then '-' else '+') :: padNat 2 (o.natAbs / 60) ++ ':' :: padNat 2 (o.natAbs % 60)

/-- The characters of Python's `datetime.isoformat()`:
`YYYY-MM-DDTHH:MM:SS[.ffffff][+HH:MM]`.  The microseconds block is omitted
when the microsecond field is zero, and the offset block is omitted for naive
datetimes, exactly as in Python. -/
def isoformatDateTimeChars (t : PyDateTime) : List Char :=
  padNat 4 t.year ++ '-' :: padNat 2 t.month ++ '-' :: padNat 2 t.day ++
    'T' :: padNat 2 t.hour ++ ':' :: padNat 2 t.minute ++ ':' :: padNat 2 t.second ++
    (if t.microsecond = 0 then [] else '.' :: padNat 6 t.microsecond) ++
    offsetChars t.offset

/-- Python's `datetime.isoformat()`. -/
def isoformatDateTime (t : PyDateTime) : String :=
  String.mk (isoformatDateTimeChars t)

/-- Read one expected character from the front of the input. -/
def expectChar (c : Char) : List Char → Option (List Char)
  | d :: cs => if d = c then some cs else Option.none
  | [] => Option.none

/-- Modelled from the spec: the trailing UTC-offset part accepted by the
`dateutil.parser.parse` collaborator on ISO-8601 input — either nothing (a
naive datetime) or a signed `HH:MM` offset, which dateutil preserves. -/
def parseOffsetPart : List Char → Option (Option Int)
  | [] => some Option.none
  | c :: cs =>
    if c = '+' ∨ c = '-' then
      (readDigits 2 0 cs).bind fun p =>
      (expectChar ':' p.2).bind fun cs2 =>
      (readDigits 2 0 cs2).bind fun q =>
      if q.2 = [] then
        some (some (if c = '-' then -Int.ofNat (p.1 * 60 + q.1) else Int.ofNat (p.1 * 60 + q.1)))
      else Option.none
    else Option.none

/-- Modelled from the spec: the optional fractional-seconds part followed by
the offset part, as accepted by `dateutil.parser.parse` on ISO-8601 input.
An absent fraction parses as zero microseconds. -/
def parseMicroOffset (cs : List Char) : Option (Nat × Option Int) :=
  match cs with
  | [] => some ((0 : Nat), Option.none)
  | c :: cs' =>
    if c = '.' then
      (readDigits 6 0 cs').bind fun p =>
      (parseOffsetPart p.2).map fun off => (p.1, off)
    else (parseOffsetPart (c :: cs')).map fun off => ((0 : Nat), off)

/-- Modelled from the spec: the optional time-of-day part.  A bare date parses
as midnight, naive — exactly dateutil's behaviour on `YYYY-MM-DD`. -/
def parseTimePart (y mo d : Nat) (cs : List Char) : Option PyDateTime :=
  match cs with
  | [] => some ⟨y, mo, d, 0, 0, 0, 0, Option.none⟩
  | c :: cs' =>
    if c = 'T' then
      (readDigits 2 0 cs').bind fun p1 =>
      (expectChar ':' p1.2).bind fun cs1 =>
      (readDigits 2 0 cs1).bind fun p2 =>
      (expectChar ':' p2.2).bind fun cs2 =>
      (readDigits 2 0 cs2).bind fun p3 =>
      (parseMicroOffset p3.2).map fun q => ⟨y, mo, d, p1.1, p2.1, p3.1, q.1, q.2⟩
    else Option.none

/-- Modelled from the spec: the external `dateutil.parser.parse` collaborator,
restricted to the ISO-8601 strings produced by `isoformatDate` /
`isoformatDateTime` ("parse ISO date / datetime, preserving offset if
present").  Returns `none` where dateutil would raise `ValueError`. -/
def dateutilParse (cs : List Char) : Option PyDateTime :=
  (readDigits 4 0 cs).bind fun p1 =>
  (expectChar '-' p1.2).bind fun cs1 =>
  (readDigits 2 0 cs1).bind fun p2 =>
  (expectChar '-' p2.2).bind fun cs2 =>
  (readDigits 2 0 cs2).bind fun p3 =>
  parseTimePart p1.1 p2.1 p3.1 p3.2

/-- The bounds Python's `datetime.date` enforces on its fields (day upper
bound relaxed to 31; the engine never inspects calendar validity). -/
def validDate (d : PyDate) : Prop :=
  1 ≤ d.year ∧ d.year ≤ 9999 ∧ 1 ≤ d.month ∧ d.month ≤ 12 ∧ 1 ≤ d.day ∧ d.day ≤ 31

/-- The bounds Python's `datetime.datetime` enforces on its fields; offsets
are whole minutes strictly between -24h and +24h. -/
def validDateTime (t : PyDateTime) : Prop :=
  1 ≤ t.year ∧ t.year ≤ 9999 ∧ 1 ≤ t.month ∧ t.month ≤ 12 ∧ 1 ≤ t.day ∧ t.day ≤ 31 ∧
    t.hour ≤ 23 ∧ t.minute ≤ 59 ∧ t.second ≤ 59 ∧ t.microsecond ≤ 999999 ∧
    ∀ o, t.offset = some o → o.natAbs ≤ 1439

instance decidableOffsetBound (o : Option Int) (k : Nat) :
    Decidable (∀ z, o = some z → z.natAbs ≤ k) :=
  match o with
  | Option.none => .isTrue (fun _ hz => by cases hz)
  | Option.some z0 =>
    if h : z0.natAbs ≤ k then
      .isTrue (fun z hz => by cases hz; exact h)
    else
      .isFalse (fun hall => h (hall z0 rfl))

instance (d : PyDate) : Decidable (validDate d) := by
  unfold validDate
  infer_instance

instance (t : PyDateTime) : Decidable (validDateTime t) := by
  unfold validDateTime
  infer_instance

theorem optionBind_some {a b : Type} (x : a) (f : a → Option b) :
    (Option.some x).bind f = f x := rfl

theorem optionMap_some {a b : Type} (x : a) (f : a → b) :
    (Option.some x).map f = some (f x) := rfl

theorem prodFst_mk {a b : Type} (x : a) (y : b) : (x, y).1 = x := rfl

theorem prodSnd_mk {a b : Type} (x : a) (y : b) : (x, y).2 = y := rfl

theorem expectChar_eq (c : Char) (cs : List Char) : expectChar c (c :: cs) = some cs := by
  simp [expectChar]

theorem exceptBind_ok {e a b : Type} (x : a) (f : a → Except e b) :
    (Except.ok x : Except e a) >>= f = f x := rfl

theorem exceptBind_err {e a b : Type} (err : e) (f : a → Except e b) :
    (Except.error err : Except e a) >>= f = Except.error err := rfl

theorem parseOffsetPart_negSign (cs : List Char) :
    parseOffsetPart ('-' :: cs) =
      ((readDigits 2 0 cs).bind fun p =>
       (expectChar ':' p.2).bind fun cs2 =>
       (readDigits 2 0 cs2).bind fun q =>
       if q.2 = [] then some (some (-Int.ofNat (p.1 * 60 + q.1))) else Option.none) := rfl

theorem parseOffsetPart_posSign (cs : List Char) :
    parseOffsetPart ('+' :: cs) =
      ((readDigits 2 0 cs).bind fun p =>
       (expectChar ':' p.2).bind fun cs2 =>
       (readDigits 2 0 cs2).bind fun q =>
       if q.2 = [] then some (some (Int.ofNat (p.1 * 60 + q.1))) else Option.none) := rfl

theorem parseMicroOffset_noDot (c : Char) (cs : List Char) (h1 : ¬c = '.') :
    parseMicroOffset (c :: cs) = (parseOffsetPart (c :: cs)).map fun off => ((0 : Nat), off) := by
  simp only [parseMicroOffset]
  rw [if_neg h1]

theorem parseMicroOffset_dot (cs : List Char) :
    parseMicroOffset ('.' :: cs) =
      ((readDigits 6 0 cs).bind fun p =>
       (parseOffsetPart p.2).map fun off => (p.1, off)) := rfl

theorem parseTimePart_cons (y mo d : Nat) (cs : List Char) :
    parseTimePart y mo d ('T' :: cs) =
      ((readDigits 2 0 cs).bind fun p1 =>
       (expectChar ':' p1.2).bind fun cs1 =>
       (readDigits 2 0 cs1).bind fun p2 =>
       (expectChar ':' p2.2).bind fun cs2 =>
       (readDigits 2 0 cs2).bind fun p3 =>
       (parseMicroOffset p3.2).map fun q => ⟨y, mo, d, p1.1, p2.1, p3.1, q.1, q.2⟩) := rfl

theorem parseOffsetPart_offsetChars {o : Option Int}
    (h : ∀ z, o = some z → z.natAbs ≤ 1439) :
    parseOffsetPart (offsetChars o) = some o := by
  cases o with
  | none => rfl
  | some z =>
    have hz : z.natAbs ≤ 1439 := h z rfl
    have hdiv : z.natAbs / 60 < 10 ^ 2 := by omega
    have hmod : z.natAbs % 60 < 10 ^ 2 := by omega
    have hpad : padNat 2 (z.natAbs % 60) = padNat 2 (z.natAbs % 60) ++ [] :=
      (List.append_nil _).symm
    by_cases hneg : z < 0
    · simp only [offsetChars, if_pos hneg, List.cons_append]
      rw [parseOffsetPart_negSign, hpad, readDigits_padNat_of_lt hdiv]
      simp only [optionBind_some, prodFst_mk, prodSnd_mk]
      rw [expectChar_eq]
      simp only [optionBind_some]
      rw [readDigits_padNat_of_lt hmod]
      simp only [optionBind_some, prodFst_mk, prodSnd_mk]
      rw [if_pos trivial]
      have hsplit : z.natAbs / 60 * 60 + z.natAbs % 60 = z.natAbs := by omega
      rw [hsplit]
      simp only [Option.some.injEq, Int.ofNat_eq_coe]
      omega
    · simp only [offsetChars, if_neg hneg, List.cons_append]
      rw [parseOffsetPart_posSign, hpad, readDigits_padNat_of_lt hdiv]
      simp only [optionBind_some, prodFst_mk, prodSnd_mk]
      rw [expectChar_eq]
      simp only [optionBind_some]
      rw [readDigits_padNat_of_lt hmod]
      simp only [optionBind_some, prodFst_mk, prodSnd_mk]
      rw [if_pos trivial]
      have hsplit : z.natAbs / 60 * 60 + z.natAbs % 60 = z.natAbs := by omega
      rw [hsplit]
      simp only [Option.some.injEq, Int.ofNat_eq_coe]
      omega

theorem parseMicroOffset_offsetChars {o : Option Int}
    (h : ∀ z, o = some z → z.natAbs ≤ 1439) :
    parseMicroOffset (offsetChars o) = some ((0 : Nat), o) := by
  have hoff := parseOffsetPart_offsetChars h
  cases o with
  | none => rfl
  | some z =>
    by_cases hneg : z < 0
    · simp only [offsetChars, if_pos hneg, List.cons_append] at hoff ⊢
      rw [parseMicroOffset_noDot _ _ (by decide), hoff, optionMap_some]
    · simp only [offsetChars, if_neg hneg, List.cons_append] at hoff ⊢
      rw [parseMicroOffset_noDot _ _ (by decide), hoff, optionMap_some]

theorem dateutilParse_isoformatDateTime {t : PyDateTime} (h : validDateTime t) :
    dateutilParse (isoformatDateTimeChars t) = some t := by
  obtain ⟨y, mo, d, hr, mi, s, us, off⟩ := t
  obtain ⟨hy1, hy2, hm1, hm2, hd1, hd2, hh, hmi, hs, hus, hoff⟩ := h
  simp only at hy1 hy2 hm1 hm2 hd1 hd2 hh hmi hs hus hoff
  have hy : y < 10 ^ 4 := by omega
  have hm : mo < 10 ^ 2 := by omega
  have hd : d < 10 ^ 2 := by omega
  have hh2 : hr < 10 ^ 2 := by omega
  have hmi2 : mi < 10 ^ 2 := by omega
  have hs2 : s < 10 ^ 2 := by omega
  have hus6 : us < 10 ^ 6 := by omega
  simp only [isoformatDateTimeChars, dateutilParse, List.cons_append, List.append_assoc]
  rw [readDigits_padNat_of_lt hy]
  simp only [optionBind_some, prodFst_mk, prodSnd_mk]
  rw [expectChar_eq]
  simp only [optionBind_some]
  rw [readDigits_padNat_of_lt hm]
  simp only [optionBind_some, prodFst_mk, prodSnd_mk]
  rw [expectChar_eq]
  simp only [optionBind_some]
  rw [readDigits_padNat_of_lt hd]
  simp only [optionBind_some, prodFst_mk, prodSnd_mk]
  rw [parseTimePart_cons]
  rw [readDigits_padNat_of_lt hh2]
  simp only [optionBind_some, prodFst_mk, prodSnd_mk]
  rw [expectChar_eq]
  simp only [optionBind_some]
  rw [readDigits_padNat_of_lt hmi2]
  simp only [optionBind_some, prodFst_mk, prodSnd_mk]
  rw [expectChar_eq]
  simp only [optionBind_some]
  rw [readDigits_padNat_of_lt hs2]
  simp only [optionBind_some, prodFst_mk, prodSnd_mk]
  by_cases hmu : us = 0
  · subst hmu
    rw [if_pos rfl, List.nil_append, parseMicroOffset_offsetChars hoff]
    simp only [optionMap_some, prodFst_mk, prodSnd_mk]
  · rw [if_neg hmu]
    simp only [List.cons_append]
    rw [parseMicroOffset_dot, readDigits_padNat_of_lt hus6]
    simp only [optionBind_some, prodFst_mk, prodSnd_mk]
    rw [parseOffsetPart_offsetChars hoff]
    simp only [optionMap_some, prodFst_mk, prodSnd_mk]

theorem dateutilParse_isoformatDate {d : PyDate} (h : validDate d) :
    dateutilParse (isoformatDateChars d) =
      some ⟨d.year, d.month, d.day, 0, 0, 0, 0, Option.none⟩ := by
  obtain ⟨hy1, hy2, hm1, hm2, hd1, hd2⟩ := h
  have hy : d.year < 10 ^ 4 := by omega
  have hm : d.month < 10 ^ 2 := by omega
  have hd : d.day < 10 ^ 2 := by omega
  simp only [isoformatDateChars, dateutilParse, List.cons_append, List.append_assoc]
  rw [readDigits_padNat_of_lt hy]
  simp only [optionBind_some, prodFst_mk, prodSnd_mk]
  rw [expectChar_eq]
  simp only [optionBind_some]
  rw [readDigits_padNat_of_lt hm]
  simp only [optionBind_some, prodFst_mk, prodSnd_mk]
  rw [expectChar_eq]
  simp only [optionBind_some]
  rw [show padNat 2 d.day = padNat 2 d.day ++ [] from (List.append_nil _).symm,
    readDigits_padNat_of_lt hd]
  simp only [optionBind_some, prodFst_mk, prodSnd_mk]
  rfl

/-! ### Schema nodes, exceptions, the format registry (`formatter.py`) -/

/-- A schema object node, carrying exactly the keys the embedded code reads:
`type` (mandatory — the source indexes `schema_object_spec['type']`
unconditionally), the optional `format` name, the optional declared `default`
value, the property-level `required` flag, the `items` sub-schema of arrays,
the `properties` sub-schemas and optional `additionalProperties` sub-schema of
objects, and the optional MODEL_MARKER tag of model-marked specs. -/
inductive SchemaObjectSpec where
  | mk
    (type : String)
    (format : Option String)
    (default : Option Val)
    (required : Bool)
    (items : Option SchemaObjectSpec)
    (properties : List (String × SchemaObjectSpec))
    (additionalProperties : Option SchemaObjectSpec)
    (modelMarker : Option String)

def SchemaObjectSpec.type : SchemaObjectSpec → String
  | .mk t _ _ _ _ _ _ _ => t

def SchemaObjectSpec.format : SchemaObjectSpec → Option String
  | .mk _ f _ _ _ _ _ _ => f

def SchemaObjectSpec.default : SchemaObjectSpec → Option Val
  | .mk _ _ d _ _ _ _ _ => d

def SchemaObjectSpec.required : SchemaObjectSpec → Bool
  | .mk _ _ _ r _ _ _ _ => r

def SchemaObjectSpec.items : SchemaObjectSpec → Option SchemaObjectSpec
  | .mk _ _ _ _ i _ _ _ => i

def SchemaObjectSpec.properties : SchemaObjectSpec → List (String × SchemaObjectSpec)
  | .mk _ _ _ _ _ p _ _ => p

def SchemaObjectSpec.additionalProperties : SchemaObjectSpec → Option SchemaObjectSpec
  | .mk _ _ _ _ _ _ a _ => a

def SchemaObjectSpec.modelMarker : SchemaObjectSpec → Option String
  | .mk _ _ _ _ _ _ _ m => m

/-- A raised Python exception.  The first six constructors are the
`SwaggerMappingError` raise sites of `marshal.py`, carrying the data the
source interpolates into the message ("is a required value", "Unknown type",
"Expected list like type", "Expected dict like type", "Unknown model",
"Expected model of type").  `otherError` stands for every other Python
exception (KeyError, AttributeError, TypeError, ValueError, RecursionError). -/
inductive PyErr where
  | requiredValueMissing (spec : SchemaObjectSpec)
  | unknownType (t : String) (v : Val)
  | expectedListLike (v : Val)
  | expectedDictLike (v : Val)
  | unknownModel (name : String)
  | modelTypeMismatch (name : String) (v : Val)
  | otherError

/-- Is this exception a `SwaggerMappingError` (the error class of every raise
site in `marshal.py`)? -/
def PyErr.isSwaggerMappingError : PyErr → Bool
  | .otherError => false
  | _ => true

/-- The `SwaggerFormat` namedtuple of `formatter.py`, field order as in the
source: `format to_python to_wire validate description`.  The conversion
functions return `Except PyErr` so that a raising converter can be modelled. -/
structure SwaggerFormat where
  format : String
  to_python : Val → Except PyErr Val
  to_wire : Val → Except PyErr Val
  validate : Val → Except PyErr Unit
  description : String

/-- `NO_OP = lambda x: None` from formatter.py, used as the built-in
formats' validate function (it returns Python `None`, i.e. does nothing). -/
def NO_OP : Val → Except PyErr Unit :=
  fun _ => .ok ()

/-- A coarse model of Python's `str()` on `Val`; only the string-identity
case is observable in the theorems below (the `byte` format applies it in its
non-string branch). -/
def pyStr : Val → String
  | .none => "None"
  | .bool true => "True"
  | .bool false => "False"
  | .int n => toString n
  | .float q => toString q
  | .str s => s
  | .date d => isoformatDate d
  | .datetime t => isoformatDateTime t
  | .list _ => "[...]"
  | .dict _ => "dict"
  | .model n _ => n

/-- Python's `isinstance(v, str)`. -/
def isInstStr : Val → Bool
  | .str _ => true
  | _ => false

/-- Python's `isinstance(v, float)`: booleans and ints are not floats. -/
def isInstFloat : Val → Bool
  | .float _ => true
  | _ => false

/-- Python's `isinstance(v, int)`: Python's `bool` is a subclass of `int`,
so booleans pass this check. -/
def isInstInt : Val → Bool
  | .int _ => true
  | .bool _ => true
  | _ => false

/-- Python's `float(x)` builtin on the values that arise here; parsing float
literals out of strings is not modelled, and `otherError` stands for the
exception Python raises in every remaining case. -/
def pyFloat : Val → Except PyErr Val
  | .float q => .ok (.float q)
  | .int n => .ok (.float (n : Rat))
  | .bool b => .ok (.float (if b then 1 else 0))
  | _ => .error .otherError

/-- Python's `int(x)` builtin on the values that arise here (floats truncate
toward zero); parsing integer literals out of strings is not modelled. -/
def pyInt : Val → Except PyErr Val
  | .int n => .ok (.int n)
  | .bool b => .ok (.int (if b then 1 else 0))
  | .float q => .ok (.int (q.num.tdiv q.den))
  | _ => .error .otherError

/-- The built-in `byte` format descriptor (`_formatters['byte']`):
identity on strings, `str()` otherwise, in both directions. -/
def byte_format : SwaggerFormat where
  format := "byte"
  to_wire := fun b => .ok (if isInstStr b then b else .str (pyStr b))
  to_python := fun s => .ok (if isInstStr s then s else .str (pyStr s))
  validate := NO_OP
  description := "Converts [wire]string:byte <=> python byte"

/-- The built-in `date` format descriptor: `d.isoformat()` to the wire
(raising AttributeError on values with no isoformat method), and
`dateutil.parser.parse(d).date()` back to Python. -/
def date_format : SwaggerFormat where
  format := "date"
  to_wire := fun d =>
    match d with
    | .date d2 => .ok (.str (isoformatDate d2))
    | .datetime t => .ok (.str (isoformatDateTime t))
    | _ => .error .otherError
  to_python := fun d =>
    match d with
    | .str s =>
      match dateutilParse s.data with
      | some t => .ok (.date t.date)
      | Option.none => .error .otherError
    | _ => .error .otherError
  validate := NO_OP
  description := "Converts [wire]string:date <=> python datetime.date"

/-- The built-in `double` format descriptor: identity on floats, `float()`
coercion otherwise, in both directions. -/
def double_format : SwaggerFormat where
  format := "double"
  to_wire := fun d => if isInstFloat d then .ok d else pyFloat d
  to_python := fun d => if isInstFloat d then .ok d else pyFloat d
  validate := NO_OP
  description := "Converts [wire]number:double <=> python float"

/-- The built-in `date-time` format descriptor: `dt.isoformat()` to the wire
and `dateutil.parser.parse(dt)` back to Python (offset preserved). -/
def datetime_format : SwaggerFormat where
  format := "date-time"
  to_wire := fun dt =>
    match dt with
    | .datetime t => .ok (.str (isoformatDateTime t))
    | .date d2 => .ok (.str (isoformatDate d2))
    | _ => .error .otherError
  to_python := fun dt =>
    match dt with
    | .str s =>
      match dateutilParse s.data with
      | some t => .ok (.datetime t)
      | Option.none => .error .otherError
    | _ => .error .otherError
  validate := NO_OP
  description := "Converts string:date-time <=> python datetime.datetime"

/-- The built-in `float` format descriptor: same converters as `double`. -/
def float_format : SwaggerFormat where
  format := "float"
  to_wire := fun f => if isInstFloat f then .ok f else pyFloat f
  to_python := fun f => if isInstFloat f then .ok f else pyFloat f
  validate := NO_OP
  description := "Converts [wire]number:float <=> python float"

/-- The built-in `int32` format descriptor: identity on ints (including
bools, which are ints in Python), `int()` coercion otherwise. -/
def int32_format : SwaggerFormat where
  format := "int32"
  to_wire := fun i => if isInstInt i then .ok i else pyInt i
  to_python := fun i => if isInstInt i then .ok i else pyInt i
  validate := NO_OP
  description := "Converts [wire]integer:int32 <=> python int"

/-- The built-in `int64` format descriptor: under Python 3 `long = int`
(the `six.PY3` branch of the source), so the converters coincide with
`int32`'s. -/
def int64_format : SwaggerFormat where
  format := "int64"
  to_wire := fun i => if isInstInt i then .ok i else pyInt i
  to_python := fun i => if isInstInt i then .ok i else pyInt i
  validate := NO_OP
  description := "Converts [wire]integer:int64 <=> python long"

/-- The format registry: format name → descriptor, modelled as an association
list where the first match wins (dict lookup). -/
abbrev Formatters := List (String × SwaggerFormat)

/-- The `_formatters` dict of built-in descriptors, in source order. -/
def _formatters : Formatters :=
  [("byte", byte_format), ("date", date_format), ("double", double_format),
    ("date-time", datetime_format), ("float", float_format),
    ("int32", int32_format), ("int64", int64_format)]

/-- `register_format` from formatter.py: dict assignment
`_formatters[swagger_format.format] = swagger_format`, modelled functionally —
the new binding is found first by lookup, shadowing any previous one. -/
def register_format (fmts : Formatters) (swagger_format : SwaggerFormat) : Formatters :=
  (swagger_format.format, swagger_format) :: fmts

/-- `get_format` from formatter.py: the descriptor registered under the given
name, or none.  The second component records whether `warnings.warn` fired:
the source warns exactly when `format` is truthy (non-empty) and no formatter
is registered. -/
def get_format (fmts : Formatters) (format : String) : Option SwaggerFormat × Bool :=
  let formatter := fmts.lookup format
  (formatter, !(format == "") && formatter.isNone)

/-! ### The `bravado_core.schema` / `bravado_core.model` collaborators -/

/-- Modelled from the spec: `hasFormat(spec)` (`bravado_core.schema.has_format`,
not under `src/`): does the schema node carry a `format` key. -/
def has_format (spec : SchemaObjectSpec) : Bool :=
  spec.format.isSome

/-- Modelled from the spec: `getFormat(spec)` (`bravado_core.schema.get_format`,
not under `src/`): the node's format name.  Named `get_spec_format` here to
avoid clashing with the registry's `get_format`; the empty string is the one
falsy string value. -/
def get_spec_format (spec : SchemaObjectSpec) : String :=
  spec.format.getD ""

/-- Modelled from the spec: `hasDefault(spec)` (`bravado_core.schema.has_default`,
not under `src/`): a `default` key is present.  A declared default may itself
be the null value. -/
def has_default (spec : SchemaObjectSpec) : Bool :=
  spec.default.isSome

/-- Modelled from the spec: `getDefault(spec)` (`bravado_core.schema.get_default`,
not under `src/`). -/
def get_default (spec : SchemaObjectSpec) : Val :=
  spec.default.getD Val.none

/-- Modelled from the spec: `isRequired(spec)` (`bravado_core.schema.is_required`,
not under `src/`): the property-level `required` flag, defaulting to false. -/
def is_required (spec : SchemaObjectSpec) : Bool :=
  spec.required

/-- Modelled from the spec: the model-marker predicate `isModel(spec)`
(`bravado_core.model.is_model`, not under `src/`): the spec carries the
MODEL_MARKER key. -/
def is_model (spec : SchemaObjectSpec) : Bool :=
  spec.modelMarker.isSome

/-- Modelled from the spec: `getPropertySpec(objectSpec, objectValue, key)`
(`bravado_core.schema.get_spec_for_prop`, not under `src/`): resolve a
property's sub-schema from the object schema's `properties`, falling back to a
declared `additionalProperties` sub-schema ("may itself consult
additional-properties rules").  The object value parameter is accepted but not
consulted. -/
def get_spec_for_prop (object_spec : SchemaObjectSpec) (_object_value : Val)
    (prop_name : String) : Option SchemaObjectSpec :=
  match object_spec.properties.lookup prop_name with
  | some prop_spec => some prop_spec
  | Option.none => object_spec.additionalProperties

/-- Modelled from the spec: the primitive type kinds
(`bravado_core.schema.SWAGGER_PRIMITIVES`, not under `src/`). -/
def SWAGGER_PRIMITIVES : List String :=
  ["integer", "number", "string", "boolean", "null"]

/-- The per-call `bravado_core.spec.Spec` collaborator as the engine sees it:
`definitions` maps a model name to its registered native model type, here
identified by the class name (the spec's `resolveModelType`). -/
structure SwaggerSpec where
  definitions : List (String × String)

/-! ### The marshaling engine (`marshal.py`) -/

/-- `formatter.to_wire`: null values and format-less specs pass through
unchanged; otherwise the format is looked up (a missing registration degrades
to passthrough, with a warning recorded by `get_format`) and its encoder
applied.  The process-wide `_formatters` registry is passed explicitly as
`fmts`. -/
def to_wire (fmts : Formatters) (spec : SchemaObjectSpec) (value : Val) : Except PyErr Val :=
  if isNone value || !has_format spec then
    .ok value
  else
    match (get_format fmts (get_spec_format spec)).1 with
    | some formatter => formatter.to_wire value
    | Option.none => .ok value

/-- `formatter.to_python`: the symmetric decode path. -/
def to_python (fmts : Formatters) (spec : SchemaObjectSpec) (value : Val) : Except PyErr Val :=
  if isNone value || !has_format spec then
    .ok value
  else
    match (get_format fmts (get_spec_format spec)).1 with
    | some formatter => formatter.to_python value
    | Option.none => .ok value

/-- `marshal_primitive` from marshal.py: substitute a declared default for a
null value (skipping format conversion on that call), enforce required-ness,
else run the value through the registry's encode path. -/
def marshal_primitive (fmts : Formatters) (spec : SchemaObjectSpec) (value : Val) :
    Except PyErr Val :=
  let default_used := isNone value && has_default spec
  let value := if default_used then get_default spec else value
  if isNone value && is_required spec then
    .error (.requiredValueMissing spec)
  else if !default_used then
    to_wire fmts spec value
  else
    .ok value

/-- The element loop of `marshal_array`: `array_spec['items']` is read per
element (so an empty list marshals successfully even without an `items` key,
and a missing key raises KeyError — `otherError` — at the first element),
with the recursive `marshal_schema_object` call abstracted as `recur`. -/
def marshal_array_elems (recur : SchemaObjectSpec → Val → Except PyErr Val)
    (array_spec : SchemaObjectSpec) : List Val → Except PyErr (List Val)
  | [] => .ok []
  | x :: xs =>
    match array_spec.items with
    | Option.none => .error .otherError
    | some items_spec => do
      let w ← recur items_spec x
      let ws ← marshal_array_elems recur array_spec xs
      .ok (w :: ws)

/-- `marshal_array` from marshal.py: a mapping error on values that are not
sequence-like (`is_list_like` holds exactly for the `.list` case matched
here), else every element is marshaled against the `items` sub-schema in
order. -/
def marshal_array (recur : SchemaObjectSpec → Val → Except PyErr Val)
    (array_spec : SchemaObjectSpec) (array_value : Val) : Except PyErr Val :=
  match array_value with
  | .list xs => (marshal_array_elems recur array_spec xs).map Val.list
  | v => .error (.expectedListLike v)

/-- The key/value loop of `marshal_object` over `iteritems(object_value)`:
null values are skipped entirely; otherwise the property's sub-schema is
resolved and the value marshaled under the same key, or passed through
unchanged when no sub-schema is found.  The whole object value is carried
along because the source passes it to `get_spec_for_prop`. -/
def marshal_object_pairs (recur : SchemaObjectSpec → Val → Except PyErr Val)
    (object_spec : SchemaObjectSpec) (object_value : Val) :
    List (String × Val) → Except PyErr (List (String × Val))
  | [] => .ok []
  | (k, v) :: rest =>
    if isNone v then
      marshal_object_pairs recur object_spec object_value rest
    else
      match get_spec_for_prop object_spec object_value k with
      | some prop_spec => do
        let w ← recur prop_spec v
        let ws ← marshal_object_pairs recur object_spec object_value rest
        .ok ((k, w) :: ws)
      | Option.none => do
        let ws ← marshal_object_pairs recur object_spec object_value rest
        .ok ((k, v) :: ws)

/-- `marshal_object` from marshal.py: a mapping error on values that are not
mapping-like (`is_dict_like` holds exactly for the `.dict` case matched
here), else the key/value pairs are processed in iteration order. -/
def marshal_object (recur : SchemaObjectSpec → Val → Except PyErr Val)
    (object_spec : SchemaObjectSpec) (object_value : Val) : Except PyErr Val :=
  match object_value with
  | .dict kvs => (marshal_object_pairs recur object_spec object_value kvs).map Val.dict
  | v => .error (.expectedDictLike v)

/-- `marshal_model` from marshal.py: resolve the model's native type from
`swagger_spec.definitions` (a mapping error when the name is unregistered),
check the value is an instance of it (class-name identity here), export the
instance's attributes as a plain dict (the spec's `listAttributes`
collaborator, `dir`/`getattr` in the source) and delegate to `marshal_object`
against the model spec.  A spec without the MODEL_MARKER key would raise
KeyError, but dispatch only routes marker-carrying specs here. -/
def marshal_model (recur : SchemaObjectSpec → Val → Except PyErr Val)
    (swagger_spec : SwaggerSpec) (model_spec : SchemaObjectSpec) (model_value : Val) :
    Except PyErr Val :=
  match model_spec.modelMarker with
  | Option.none => .error .otherError
  | some model_name =>
    match swagger_spec.definitions.lookup model_name with
    | Option.none => .error (.unknownModel model_name)
    | some model_type =>
      match model_value with
      | .model className attrs =>
        if className == model_type then
          marshal_object recur model_spec (.dict attrs)
        else
          .error (.modelTypeMismatch model_name model_value)
      | v => .error (.modelTypeMismatch model_name v)

/-- `marshal_schema_object` from marshal.py: dispatch on the declared type in
source order — primitive kinds, `array`, the model marker (where dict-like
values duck-type as plain objects), `object`, `file` passthrough, else a
mapping error naming the unknown type.  `fuel` bounds the recursion depth,
modelling the Python call stack: each recursive call consumes one unit, and a
call at fuel 0 stands for the interpreter's RecursionError (`otherError`).
Theorems below are stated at an explicit sufficient depth. -/
def marshal_schema_object (fmts : Formatters) (swagger_spec : SwaggerSpec) :
    Nat → SchemaObjectSpec → Val → Except PyErr Val
  | 0, _, _ => .error .otherError
  | fuel+1, schema_object_spec, value =>
    if SWAGGER_PRIMITIVES.contains schema_object_spec.type then
      marshal_primitive fmts schema_object_spec value
    else if schema_object_spec.type == "array" then
      marshal_array (marshal_schema_object fmts swagger_spec fuel) schema_object_spec value
    else if is_model schema_object_spec then
      if is_dict_like value then
        marshal_object (marshal_schema_object fmts swagger_spec fuel) schema_object_spec value
      else
        marshal_model (marshal_schema_object fmts swagger_spec fuel) swagger_spec
          schema_object_spec value
    else if schema_object_spec.type == "object" then
      marshal_object (marshal_schema_object fmts swagger_spec fuel) schema_object_spec value
    else if schema_object_spec.type == "file" then
      .ok value
    else
      .error (.unknownType schema_object_spec.type value)

example :
    marshal_schema_object _formatters ⟨[]⟩ 1
      (.mk "integer" (some "int64") Option.none false Option.none [] Option.none Option.none)
      (.int 42) = .ok (.int 42) := rfl

example :
    marshal_schema_object _formatters ⟨[]⟩ 2
      (.mk "object" Option.none Option.none false Option.none
        [("seen", .mk "boolean" Option.none Option.none false Option.none [] Option.none Option.none)]
        Option.none Option.none)
      (.dict [("seen", Val.none), ("extra", .str "x")]) =
      .ok (.dict [("extra", .str "x")]) := rfl

example :
    marshal_schema_object _formatters ⟨[]⟩ 1
      (.mk "string" (some "date") Option.none false Option.none [] Option.none Option.none)
      (.date ⟨2024, 3, 15⟩) = .ok (.str "2024-03-15") := rfl

example :
    marshal_schema_object _formatters ⟨[]⟩ 1
      (.mk "string" (some "custom-foo") Option.none false Option.none [] Option.none Option.none)
      (.str "abc") = .ok (.str "abc") := rfl

/-! ### Behaviour of the primitive path (`marshal_primitive` / `to_wire`) -/

theorem isNone_iff {v : Val} : isNone v = true ↔ v = Val.none := by
  cases v <;> simp [isNone]

theorem isNone_false_iff {v : Val} : isNone v = false ↔ v ≠ Val.none := by
  cases v <;> simp [isNone]

theorem to_wire_none (fmts : Formatters) (spec : SchemaObjectSpec) :
    to_wire fmts spec Val.none = .ok Val.none := rfl

theorem to_wire_no_format (fmts : Formatters) {spec : SchemaObjectSpec} (v : Val)
    (h : spec.format = Option.none) :
    to_wire fmts spec v = .ok v := by
  simp [to_wire, has_format, h]

theorem to_wire_unregistered (fmts : Formatters) {spec : SchemaObjectSpec} (v : Val)
    {name : String} (h : spec.format = some name) (hl : fmts.lookup name = Option.none) :
    to_wire fmts spec v = .ok v := by
  cases hv : isNone v with
  | true => simp [to_wire, hv]
  | false => simp [to_wire, hv, has_format, get_format, get_spec_format, h, hl]

theorem to_wire_registered (fmts : Formatters) {spec : SchemaObjectSpec} (v : Val)
    {name : String} {f : SwaggerFormat} (h : spec.format = some name)
    (hl : fmts.lookup name = some f) (hv : isNone v = false) :
    to_wire fmts spec v = f.to_wire v := by
  simp [to_wire, hv, has_format, get_format, get_spec_format, h, hl]

theorem marshal_primitive_with_default (fmts : Formatters) (spec : SchemaObjectSpec) (d : Val)
    (hd : spec.default = some d) :
    marshal_primitive fmts spec Val.none =
      if isNone d && spec.required then .error (.requiredValueMissing spec) else .ok d := by
  simp [marshal_primitive, has_default, hd, get_default, is_required, isNone]

theorem marshal_primitive_no_default (fmts : Formatters) {spec : SchemaObjectSpec} (value : Val)
    (hd : spec.default = Option.none) :
    marshal_primitive fmts spec value =
      if isNone value && spec.required then .error (.requiredValueMissing spec)
      else to_wire fmts spec value := by
  simp [marshal_primitive, has_default, hd, is_required]

theorem marshal_primitive_not_none (fmts : Formatters) (spec : SchemaObjectSpec) {value : Val}
    (hv : isNone value = false) :
    marshal_primitive fmts spec value = to_wire fmts spec value := by
  simp [marshal_primitive, hv]

theorem lookup_formatters_mem {name : String} {f : SwaggerFormat}
    (h : _formatters.lookup name = some f) :
    f = byte_format ∨ f = date_format ∨ f = double_format ∨ f = datetime_format ∨
      f = float_format ∨ f = int32_format ∨ f = int64_format := by
  simp only [_formatters, List.lookup] at h
  repeat' split at h
  all_goals first
    | (cases h; tauto)
    | cases h

theorem pyFloat_error {v : Val} {e : PyErr} (h : pyFloat v = .error e) : e = .otherError := by
  cases v <;> simp [pyFloat] at h <;> exact h.symm

theorem pyInt_error {v : Val} {e : PyErr} (h : pyInt v = .error e) : e = .otherError := by
  cases v <;> simp [pyInt] at h <;> exact h.symm

theorem builtin_to_wire_error {f : SwaggerFormat}
    (hf : f = byte_format ∨ f = date_format ∨ f = double_format ∨ f = datetime_format ∨
      f = float_format ∨ f = int32_format ∨ f = int64_format)
    {v : Val} {e : PyErr} (h : f.to_wire v = .error e) : e = .otherError := by
  rcases hf with h1|h1|h1|h1|h1|h1|h1 <;> subst h1
  · simp [byte_format] at h
  · cases v <;> simp [date_format] at h <;> exact h.symm
  · revert h
    simp only [double_format]
    split
    · intro h
      cases h
    · exact pyFloat_error
  · cases v <;> simp [datetime_format] at h <;> exact h.symm
  · revert h
    simp only [float_format]
    split
    · intro h
      cases h
    · exact pyFloat_error
  · revert h
    simp only [int32_format]
    split
    · intro h
      cases h
    · exact pyInt_error
  · revert h
    simp only [int64_format]
    split
    · intro h
      cases h
    · exact pyInt_error

theorem to_wire_builtins_error {spec : SchemaObjectSpec} {v : Val} {e : PyErr}
    (h : to_wire _formatters spec v = .error e) : e = .otherError := by
  unfold to_wire at h
  split at h
  · cases h
  · revert h
    cases hf : (get_format _formatters (get_spec_format spec)).1 with
    | none =>
      intro h
      cases h
    | some f =>
      intro h
      have hmem : _formatters.lookup (get_spec_format spec) = some f := by
        simpa [get_format] using hf
      exact builtin_to_wire_error (lookup_formatters_mem hmem) h

/-! ### Claims C1, C2, C3, C10 -/

/-- The schema node of the C1 counterexample: a required string primitive
declaring both a format and an explicit null default. -/
def c1_spec : SchemaObjectSpec :=
  .mk "string" (some "date") (some Val.none) true Option.none [] Option.none Option.none

/-- C1 counterexample: for a primitive spec that declares a default (here the
explicit null default of a required spec), marshaling a null value does not
return the default verbatim — the required-check runs on the substituted null
and raises the missing-required-value error instead. -/
theorem c1_counterexample :
    marshal_primitive _formatters c1_spec Val.none = .error (.requiredValueMissing c1_spec) ∧
    ¬marshal_primitive _formatters c1_spec Val.none = .ok Val.none :=
  ⟨rfl, fun h => nomatch h⟩

/-- C1 (amended): for every primitive spec declaring a default, marshaling a
null value substitutes the default and skips the format-encoding step
entirely on that call — the result is the default verbatim (never the format
encoder's output), except that a null default on a required spec triggers the
missing-required-value error. -/
theorem c1_default_precedence (fmts : Formatters) (spec : SchemaObjectSpec) (d : Val)
    (hd : spec.default = some d) :
    marshal_primitive fmts spec Val.none =
      if isNone d && spec.required then .error (.requiredValueMissing spec) else .ok d :=
  marshal_primitive_with_default fmts spec d hd

/-- The schema node of the C1 witness: an int32-formatted primitive with a
non-null default — the default comes back verbatim, not through the encoder. -/
def c1_witness_spec : SchemaObjectSpec :=
  .mk "integer" (some "int32") (some (Val.int 5)) false Option.none [] Option.none Option.none

theorem c1_default_precedence_witness :
    marshal_primitive _formatters c1_witness_spec Val.none = .ok (.int 5) := by
  have h := c1_default_precedence _formatters c1_witness_spec (Val.int 5) rfl
  simpa using h

/-- The schema node of the C2 counterexample: a required primitive with an
explicit null default. -/
def c2_spec : SchemaObjectSpec :=
  .mk "integer" Option.none (some Val.none) true Option.none [] Option.none Option.none

/-- C2 counterexample: a required primitive with an explicit null default is
"a null value with a default", yet marshaling null raises the
missing-required-value error, refuting the claim's second half. -/
theorem c2_counterexample :
    has_default c2_spec = true ∧
    marshal_primitive _formatters c2_spec Val.none = .error (.requiredValueMissing c2_spec) :=
  ⟨rfl, rfl⟩

/-- C2 (amended): a required primitive with no default fails on null with the
missing-required-value error; a non-null value (against the built-in
registry, whose converters raise no mapping errors) never produces that
error, and neither does a null value whose declared default is non-null. -/
theorem c2_required_enforcement (fmts : Formatters)
    (spec1 spec2 spec3 : SchemaObjectSpec) (v : Val) (d : Val)
    (h1req : spec1.required = true) (h1nd : spec1.default = Option.none)
    (h2v : isNone v = false)
    (h3d : spec3.default = some d) (h3dn : isNone d = false) :
    marshal_primitive fmts spec1 Val.none = .error (.requiredValueMissing spec1) ∧
    marshal_primitive _formatters spec2 v ≠ .error (.requiredValueMissing spec2) ∧
    marshal_primitive fmts spec3 Val.none ≠ .error (.requiredValueMissing spec3) := by
  refine ⟨?_, ?_, ?_⟩
  · rw [marshal_primitive_no_default fmts Val.none h1nd]
    simp [isNone, h1req]
  · intro h
    rw [marshal_primitive_not_none _formatters spec2 h2v] at h
    cases to_wire_builtins_error h
  · intro h
    rw [marshal_primitive_with_default fmts spec3 d h3d] at h
    simp [h3dn] at h

/-- The schema nodes of the C2 witness. -/
def c2_witness_spec1 : SchemaObjectSpec :=
  .mk "integer" Option.none Option.none true Option.none [] Option.none Option.none

def c2_witness_spec3 : SchemaObjectSpec :=
  .mk "integer" Option.none (some (Val.int 5)) true Option.none [] Option.none Option.none

theorem c2_required_enforcement_witness :
    marshal_primitive _formatters c2_witness_spec1 Val.none =
      .error (.requiredValueMissing c2_witness_spec1) ∧
    marshal_primitive _formatters c2_witness_spec1 (.int 7) ≠
      .error (.requiredValueMissing c2_witness_spec1) ∧
    marshal_primitive _formatters c2_witness_spec3 Val.none ≠
      .error (.requiredValueMissing c2_witness_spec3) :=
  c2_required_enforcement _formatters c2_witness_spec1 c2_witness_spec1 c2_witness_spec3
    (.int 7) (.int 5) rfl rfl rfl rfl rfl

/-- The schema node of the C3 counterexample: a primitive spec whose format
name is the empty string. -/
def c3_spec : SchemaObjectSpec :=
  .mk "string" (some "") Option.none false Option.none [] Option.none Option.none

/-- C3 counterexample: a spec carrying the (unregistered) empty format name
passes the value through unchanged, but no warning is surfaced — the source
warns only on truthy names — refuting the claim's unconditional "surfaces a
non-fatal warning". -/
theorem c3_counterexample :
    has_format c3_spec = true ∧
    (get_format _formatters (get_spec_format c3_spec)).1 = Option.none ∧
    to_wire _formatters c3_spec (.str "abc") = .ok (.str "abc") ∧
    (get_format _formatters (get_spec_format c3_spec)).2 = false :=
  ⟨rfl, rfl, rfl, rfl⟩

/-- C3 (amended): the registry's encode operation returns the value unchanged
when the value is null or the spec carries no format; an unregistered format
name also returns the value unchanged — never an error — and surfaces the
non-fatal warning exactly when the name is non-empty; only a registered
format's encoder is applied to the value. -/
theorem c3_unknown_format_passthrough (fmts : Formatters)
    (spec1 spec2 spec3 spec4 : SchemaObjectSpec) (v1 v2 v3 v4 : Val)
    (name3 name4 : String) (f4 : SwaggerFormat)
    (h1 : isNone v1 = true)
    (h2 : spec2.format = Option.none)
    (h3 : spec3.format = some name3) (h3l : fmts.lookup name3 = Option.none)
    (h4 : spec4.format = some name4) (h4l : fmts.lookup name4 = some f4)
    (h4v : isNone v4 = false) :
    to_wire fmts spec1 v1 = .ok v1 ∧
    to_wire fmts spec2 v2 = .ok v2 ∧
    (to_wire fmts spec3 v3 = .ok v3 ∧ ((get_format fmts name3).2 = true ↔ name3 ≠ "")) ∧
    to_wire fmts spec4 v4 = f4.to_wire v4 := by
  refine ⟨?_, to_wire_no_format fmts v2 h2, ⟨to_wire_unregistered fmts v3 h3 h3l, ?_⟩,
    to_wire_registered fmts v4 h4 h4l h4v⟩
  · rw [isNone_iff.mp h1]
    exact to_wire_none fmts spec1
  · simp [get_format, h3l]

/-- The schema nodes of the C3 witness. -/
def c3_witness_spec2 : SchemaObjectSpec :=
  .mk "string" Option.none Option.none false Option.none [] Option.none Option.none

def c3_witness_spec3 : SchemaObjectSpec :=
  .mk "string" (some "custom-foo") Option.none false Option.none [] Option.none Option.none

def c3_witness_spec4 : SchemaObjectSpec :=
  .mk "string" (some "byte") Option.none false Option.none [] Option.none Option.none

theorem c3_unknown_format_passthrough_witness :
    to_wire _formatters c3_witness_spec3 Val.none = .ok Val.none ∧
    to_wire _formatters c3_witness_spec2 (.str "a") = .ok (.str "a") ∧
    (to_wire _formatters c3_witness_spec3 (.str "abc") = .ok (.str "abc") ∧
      ((get_format _formatters "custom-foo").2 = true ↔ ("custom-foo" : String) ≠ "")) ∧
    to_wire _formatters c3_witness_spec4 (.str "b") = byte_format.to_wire (.str "b") :=
  c3_unknown_format_passthrough _formatters c3_witness_spec3 c3_witness_spec2
    c3_witness_spec3 c3_witness_spec4 Val.none (.str "a") (.str "abc") (.str "b")
    "custom-foo" "byte" byte_format rfl rfl rfl rfl rfl rfl rfl

theorem marshal_schema_object_succ (fmts : Formatters) (swagger_spec : SwaggerSpec)
    (fuel : Nat) (spec : SchemaObjectSpec) (value : Val) :
    marshal_schema_object fmts swagger_spec (fuel+1) spec value =
      (if SWAGGER_PRIMITIVES.contains spec.type then
        marshal_primitive fmts spec value
      else if spec.type == "array" then
        marshal_array (marshal_schema_object fmts swagger_spec fuel) spec value
      else if is_model spec then
        if is_dict_like value then
          marshal_object (marshal_schema_object fmts swagger_spec fuel) spec value
        else
          marshal_model (marshal_schema_object fmts swagger_spec fuel) swagger_spec spec value
      else if spec.type == "object" then
        marshal_object (marshal_schema_object fmts swagger_spec fuel) spec value
      else if spec.type == "file" then
        .ok value
      else
        .error (.unknownType spec.type value)) := rfl

theorem marshal_schema_object_primitive (fmts : Formatters) (swagger_spec : SwaggerSpec)
    (fuel : Nat) {spec : SchemaObjectSpec} (value : Val)
    (hprim : SWAGGER_PRIMITIVES.contains spec.type = true) :
    marshal_schema_object fmts swagger_spec (fuel+1) spec value =
      marshal_primitive fmts spec value := by
  rw [marshal_schema_object_succ, if_pos hprim]

theorem marshal_array_elems_nil (recur : SchemaObjectSpec → Val → Except PyErr Val)
    (aspec : SchemaObjectSpec) : marshal_array_elems recur aspec [] = .ok [] := rfl

theorem marshal_array_elems_cons (recur : SchemaObjectSpec → Val → Except PyErr Val)
    (aspec : SchemaObjectSpec) (x : Val) (xs : List Val) :
    marshal_array_elems recur aspec (x :: xs) =
      (match aspec.items with
       | Option.none => .error .otherError
       | some items_spec => do
          let w ← recur items_spec x
          let ws ← marshal_array_elems recur aspec xs
          Except.ok (w :: ws)) := rfl

theorem marshal_array_elems_cons_items (recur : SchemaObjectSpec → Val → Except PyErr Val)
    {aspec ispec : SchemaObjectSpec} (h : aspec.items = some ispec) (x : Val) (xs : List Val) :
    marshal_array_elems recur aspec (x :: xs) =
      (do
        let w ← recur ispec x
        let ws ← marshal_array_elems recur aspec xs
        Except.ok (w :: ws)) := by
  rw [marshal_array_elems_cons, h]

theorem marshal_object_pairs_nil (recur : SchemaObjectSpec → Val → Except PyErr Val)
    (ospec : SchemaObjectSpec) (oval : Val) :
    marshal_object_pairs recur ospec oval [] = .ok [] := rfl

theorem marshal_object_pairs_cons (recur : SchemaObjectSpec → Val → Except PyErr Val)
    (ospec : SchemaObjectSpec) (oval : Val) (k : String) (v : Val)
    (rest : List (String × Val)) :
    marshal_object_pairs recur ospec oval ((k, v) :: rest) =
      (if isNone v then
        marshal_object_pairs recur ospec oval rest
      else
        match get_spec_for_prop ospec oval k with
        | some prop_spec => do
            let w ← recur prop_spec v
            let ws ← marshal_object_pairs recur ospec oval rest
            Except.ok ((k, w) :: ws)
        | Option.none => do
            let ws ← marshal_object_pairs recur ospec oval rest
            Except.ok ((k, v) :: ws)) := rfl

/-- C10: for a primitive spec with no default and not marked required,
marshaling a null value returns null — the null is fed into the
format-encoding path, which returns it unchanged even when a format is
declared — so primitive nulls survive at the top level and inside arrays. -/
theorem c10_primitive_null_survives (fmts : Formatters) (swagger_spec : SwaggerSpec)
    (fuel : Nat) (spec aspec : SchemaObjectSpec)
    (hnd : spec.default = Option.none) (hnr : spec.required = false)
    (hprim : SWAGGER_PRIMITIVES.contains spec.type = true)
    (hitems : aspec.items = some spec) :
    marshal_primitive fmts spec Val.none = .ok Val.none ∧
    to_wire fmts spec Val.none = .ok Val.none ∧
    marshal_schema_object fmts swagger_spec (fuel+1) spec Val.none = .ok Val.none ∧
    marshal_array (marshal_schema_object fmts swagger_spec (fuel+1)) aspec
      (.list [Val.none]) = .ok (.list [Val.none]) := by
  have h1 : marshal_primitive fmts spec Val.none = .ok Val.none := by
    rw [marshal_primitive_no_default fmts Val.none hnd]
    simp [isNone, hnr, to_wire_none]
  have h3 : marshal_schema_object fmts swagger_spec (fuel+1) spec Val.none = .ok Val.none := by
    rw [marshal_schema_object_primitive fmts swagger_spec fuel Val.none hprim, h1]
  refine ⟨h1, to_wire_none fmts spec, h3, ?_⟩
  show (marshal_array_elems (marshal_schema_object fmts swagger_spec (fuel+1)) aspec
      [Val.none]).map Val.list = .ok (.list [Val.none])
  rw [marshal_array_elems_cons_items _ hitems, h3]
  rfl

/-- The schema nodes of the C10 witness: a date-formatted string primitive
inside an array. -/
def c10_witness_spec : SchemaObjectSpec :=
  .mk "string" (some "date") Option.none false Option.none [] Option.none Option.none

def c10_witness_aspec : SchemaObjectSpec :=
  .mk "array" Option.none Option.none false (some c10_witness_spec) [] Option.none Option.none

theorem c10_primitive_null_survives_witness :
    marshal_primitive _formatters c10_witness_spec Val.none = .ok Val.none ∧
    to_wire _formatters c10_witness_spec Val.none = .ok Val.none ∧
    marshal_schema_object _formatters ⟨[]⟩ 1 c10_witness_spec Val.none = .ok Val.none ∧
    marshal_array (marshal_schema_object _formatters ⟨[]⟩ 1) c10_witness_aspec
      (.list [Val.none]) = .ok (.list [Val.none]) :=
  c10_primitive_null_survives _formatters ⟨[]⟩ 0 c10_witness_spec c10_witness_aspec
    rfl rfl rfl rfl

/-! ### Claims C5, C6, C7: the array and object sub-transforms -/

theorem marshal_array_elems_ok {recur : SchemaObjectSpec → Val → Except PyErr Val}
    {aspec ispec : SchemaObjectSpec} (hitems : aspec.items = some ispec) :
    ∀ {xs ys : List Val},
      marshal_array_elems recur aspec xs = .ok ys →
      ys.length = xs.length ∧
        ∀ (i : Nat) (x : Val), xs[i]? = some x → ∃ y, ys[i]? = some y ∧ recur ispec x = .ok y := by
  intro xs
  induction xs with
  | nil =>
    intro ys h
    rw [marshal_array_elems_nil] at h
    cases h
    simp
  | cons x xs ih =>
    intro ys h
    rw [marshal_array_elems_cons_items recur hitems] at h
    cases hw : recur ispec x with
    | error e =>
      simp only [hw, exceptBind_err] at h
      cases h
    | ok w =>
      cases hws : marshal_array_elems recur aspec xs with
      | error e =>
        simp only [hw, hws, exceptBind_ok, exceptBind_err] at h
        cases h
      | ok ws =>
        simp only [hw, hws, exceptBind_ok] at h
        cases h
        obtain ⟨hlen, hpt⟩ := ih hws
        refine ⟨by simp [hlen], ?_⟩
        intro i xv hx
        cases i with
        | zero =>
          simp only [List.getElem?_cons_zero, Option.some.injEq] at hx
          subst hx
          exact ⟨w, by simp, hw⟩
        | succ j =>
          simp only [List.getElem?_cons_succ] at hx ⊢
          exact hpt j xv hx

/-- C5: the array sub-transform fails with a mapping error whenever the value
is not sequence-like; otherwise, for every sequence of length n, it returns a
new sequence of length n whose i-th element is the recursive marshal of the
input's i-th element against the array's `items` sub-schema — order
preserved, nothing filtered. -/
theorem c5_array_order_length (recur : SchemaObjectSpec → Val → Except PyErr Val)
    {aspec ispec : SchemaObjectSpec} (hitems : aspec.items = some ispec)
    (v : Val) (hv : is_list_like v = false) (xs : List Val) :
    marshal_array recur aspec v = .error (.expectedListLike v) ∧
    (PyErr.expectedListLike v).isSwaggerMappingError = true ∧
    (∀ w, marshal_array recur aspec (.list xs) = .ok w →
      ∃ ys, w = .list ys ∧ ys.length = xs.length ∧
        ∀ (i : Nat) (x : Val), xs[i]? = some x → ∃ y, ys[i]? = some y ∧ recur ispec x = .ok y) := by
  refine ⟨?_, rfl, ?_⟩
  · cases v <;> first | rfl | simp [is_list_like] at hv
  · intro w hw
    have hw2 : (marshal_array_elems recur aspec xs).map Val.list = .ok w := hw
    cases he : marshal_array_elems recur aspec xs with
    | error e => rw [he] at hw2; cases hw2
    | ok ys =>
      rw [he] at hw2
      cases hw2
      exact ⟨ys, rfl, marshal_array_elems_ok hitems he⟩

/-- The schema nodes of the C5 witness. -/
def c5_witness_ispec : SchemaObjectSpec :=
  .mk "boolean" Option.none Option.none false Option.none [] Option.none Option.none

def c5_witness_aspec : SchemaObjectSpec :=
  .mk "array" Option.none Option.none false (some c5_witness_ispec) [] Option.none Option.none

theorem c5_array_order_length_witness :
    marshal_array (marshal_schema_object _formatters ⟨[]⟩ 1) c5_witness_aspec (.int 0) =
      .error (.expectedListLike (.int 0)) ∧
    (PyErr.expectedListLike (.int 0)).isSwaggerMappingError = true ∧
    (∀ w, marshal_array (marshal_schema_object _formatters ⟨[]⟩ 1) c5_witness_aspec
        (.list [.bool true, .bool false]) = .ok w →
      ∃ ys, w = .list ys ∧ ys.length = [Val.bool true, Val.bool false].length ∧
        ∀ (i : Nat) (x : Val), [Val.bool true, Val.bool false][i]? = some x →
          ∃ y, ys[i]? = some y ∧
            marshal_schema_object _formatters ⟨[]⟩ 1 c5_witness_ispec x = .ok y) :=
  @c5_array_order_length (marshal_schema_object _formatters ⟨[]⟩ 1) c5_witness_aspec
    c5_witness_ispec rfl (.int 0) rfl [.bool true, .bool false]

theorem marshal_object_pairs_keys {recur : SchemaObjectSpec → Val → Except PyErr Val}
    {ospec : SchemaObjectSpec} {oval : Val} :
    ∀ {kvs res : List (String × Val)},
      marshal_object_pairs recur ospec oval kvs = .ok res →
      ∀ p, p ∈ res → p.1 ∈ kvs.map Prod.fst := by
  intro kvs
  induction kvs with
  | nil =>
    intro res h p hp
    rw [marshal_object_pairs_nil] at h
    cases h
    simp at hp
  | cons kv rest ih =>
    intro res h p hp
    obtain ⟨k, v⟩ := kv
    rw [marshal_object_pairs_cons] at h
    cases hv : isNone v with
    | true =>
      rw [hv, if_pos rfl] at h
      have := ih h p hp
      simp only [List.map_cons, List.mem_cons]
      exact Or.inr this
    | false =>
      rw [hv, if_neg Bool.false_ne_true] at h
      cases hps : get_spec_for_prop ospec oval k with
      | some ps =>
        rw [hps] at h
        cases hw : recur ps v with
        | error e =>
          simp only [hw, exceptBind_err] at h
          cases h
        | ok w =>
          cases hrest : marshal_object_pairs recur ospec oval rest with
          | error e =>
            simp only [hw, hrest, exceptBind_ok, exceptBind_err] at h
            cases h
          | ok ws =>
            simp only [hw, hrest, exceptBind_ok] at h
            cases h
            simp only [List.map_cons, List.mem_cons]
            rcases List.mem_cons.mp hp with hp | hp
            · subst hp
              exact Or.inl rfl
            · exact Or.inr (ih hrest p hp)
      | none =>
        rw [hps] at h
        cases hrest : marshal_object_pairs recur ospec oval rest with
        | error e =>
          simp only [hrest, exceptBind_err] at h
          cases h
        | ok ws =>
          simp only [hrest, exceptBind_ok] at h
          cases h
          simp only [List.map_cons, List.mem_cons]
          rcases List.mem_cons.mp hp with hp | hp
          · subst hp
            exact Or.inl rfl
          · exact Or.inr (ih hrest p hp)

theorem marshal_object_pairs_mem {recur : SchemaObjectSpec → Val → Except PyErr Val}
    {ospec : SchemaObjectSpec} {oval : Val} :
    ∀ {kvs res : List (String × Val)},
      (kvs.map Prod.fst).Nodup →
      marshal_object_pairs recur ospec oval kvs = .ok res →
      ∀ k x, (k, x) ∈ kvs →
        (x = Val.none → ∀ w, (k, w) ∉ res) ∧
        (x ≠ Val.none →
          (∀ ps, get_spec_for_prop ospec oval k = some ps →
            ∃ w, recur ps x = .ok w ∧ (k, w) ∈ res) ∧
          (get_spec_for_prop ospec oval k = Option.none → (k, x) ∈ res)) := by
  intro kvs
  induction kvs with
  | nil =>
    intro res _ _ k x hmem
    simp at hmem
  | cons kv rest ih =>
    intro res hnd h k x hmem
    obtain ⟨k1, v1⟩ := kv
    simp only [List.map_cons, List.nodup_cons] at hnd
    obtain ⟨hk1, hnd'⟩ := hnd
    rw [marshal_object_pairs_cons] at h
    rcases List.mem_cons.mp hmem with hhead | htail
    · -- the pair under scrutiny is the head
      cases hhead
      cases hv : isNone x with
      | true =>
        -- head value is null: it is dropped, the rest alone produces res
        have hx : x = Val.none := isNone_iff.mp hv
        rw [hv, if_pos rfl] at h
        refine ⟨fun _ w hw => ?_, fun hne => absurd hx hne⟩
        have := marshal_object_pairs_keys h (k, w) hw
        simp only at this
        exact hk1 this
      | false =>
        have hx : x ≠ Val.none := isNone_false_iff.mp hv
        rw [hv, if_neg Bool.false_ne_true] at h
        refine ⟨fun hx0 => absurd hx0 hx, fun _ => ?_⟩
        cases hps : get_spec_for_prop ospec oval k with
        | some ps =>
          rw [hps] at h
          cases hw : recur ps x with
          | error e =>
            simp only [hw, exceptBind_err] at h
            cases h
          | ok w =>
            cases hrest : marshal_object_pairs recur ospec oval rest with
            | error e =>
              simp only [hw, hrest, exceptBind_ok, exceptBind_err] at h
              cases h
            | ok ws =>
              simp only [hw, hrest, exceptBind_ok] at h
              cases h
              refine ⟨fun ps' hps' => ?_, fun hnone => ?_⟩
              · cases hps'
                exact ⟨w, hw, List.mem_cons_self _ _⟩
              · cases hnone
        | none =>
          rw [hps] at h
          cases hrest : marshal_object_pairs recur ospec oval rest with
          | error e =>
            simp only [hrest, exceptBind_err] at h
            cases h
          | ok ws =>
            simp only [hrest, exceptBind_ok] at h
            cases h
            refine ⟨fun ps' hps' => ?_, fun _ => List.mem_cons_self _ _⟩
            cases hps'
    · -- the pair under scrutiny lies in the tail
      have hkrest : k ∈ rest.map Prod.fst := List.mem_map_of_mem Prod.fst htail
      have hkne : k ≠ k1 := fun he => hk1 (he ▸ hkrest)
      cases hv1 : isNone v1 with
      | true =>
        rw [hv1, if_pos rfl] at h
        exact ih hnd' h k x htail
      | false =>
        rw [hv1, if_neg Bool.false_ne_true] at h
        cases hps1 : get_spec_for_prop ospec oval k1 with
        | some ps1 =>
          rw [hps1] at h
          cases hw1 : recur ps1 v1 with
          | error e =>
            simp only [hw1, exceptBind_err] at h
            cases h
          | ok w1 =>
            cases hrest : marshal_object_pairs recur ospec oval rest with
            | error e =>
              simp only [hw1, hrest, exceptBind_ok, exceptBind_err] at h
              cases h
            | ok ws =>
              simp only [hw1, hrest, exceptBind_ok] at h
              cases h
              obtain ⟨hnull, hrec⟩ := ih hnd' hrest k x htail
              refine ⟨fun hx0 w hw => ?_, fun hne => ?_⟩
              · rcases List.mem_cons.mp hw with he | he
                · exact hkne (congrArg Prod.fst he)
                · exact hnull hx0 w he
              · obtain ⟨ha, hb⟩ := hrec hne
                refine ⟨fun ps' hps' => ?_, fun hnone => ?_⟩
                · obtain ⟨w, hwr, hwm⟩ := ha ps' hps'
                  exact ⟨w, hwr, List.mem_cons_of_mem _ hwm⟩
                · exact List.mem_cons_of_mem _ (hb hnone)
        | none =>
          rw [hps1] at h
          cases hrest : marshal_object_pairs recur ospec oval rest with
          | error e =>
            simp only [hrest, exceptBind_err] at h
            cases h
          | ok ws =>
            simp only [hrest, exceptBind_ok] at h
            cases h
            obtain ⟨hnull, hrec⟩ := ih hnd' hrest k x htail
            refine ⟨fun hx0 w hw => ?_, fun hne => ?_⟩
            · rcases List.mem_cons.mp hw with he | he
              · exact hkne (congrArg Prod.fst he)
              · exact hnull hx0 w he
            · obtain ⟨ha, hb⟩ := hrec hne
              refine ⟨fun ps' hps' => ?_, fun hnone => ?_⟩
              · obtain ⟨w, hwr, hwm⟩ := ha ps' hps'
                exact ⟨w, hwr, List.mem_cons_of_mem _ hwm⟩
              · exact List.mem_cons_of_mem _ (hb hnone)

/-- C6: the object sub-transform fails with a mapping error whenever the
value is not mapping-like; on a mapping it always returns a mapping, and for
every key/value pair of the input: a null value leaves the key absent from
the result, a non-null value with a resolvable property sub-schema is
recursively marshaled and kept under the same key, and a non-null value with
no resolvable sub-schema is kept unchanged under the same key.  (The
duplicate-free key hypothesis mirrors Python dict keys.) -/
theorem c6_object_transform (recur : SchemaObjectSpec → Val → Except PyErr Val)
    (ospec : SchemaObjectSpec) (v : Val) (hv : is_dict_like v = false)
    (kvs res : List (String × Val)) (hnd : (kvs.map Prod.fst).Nodup)
    (hok : marshal_object recur ospec (.dict kvs) = .ok (.dict res)) :
    marshal_object recur ospec v = .error (.expectedDictLike v) ∧
    (PyErr.expectedDictLike v).isSwaggerMappingError = true ∧
    (∀ w, marshal_object recur ospec (.dict kvs) = .ok w →
      ∃ res', w = .dict res') ∧
    (∀ k x, (k, x) ∈ kvs →
      (x = Val.none → ∀ w, (k, w) ∉ res) ∧
      (x ≠ Val.none →
        (∀ ps, get_spec_for_prop ospec (.dict kvs) k = some ps →
          ∃ w, recur ps x = .ok w ∧ (k, w) ∈ res) ∧
        (get_spec_for_prop ospec (.dict kvs) k = Option.none → (k, x) ∈ res))) := by
  have hshape : ∀ w, marshal_object recur ospec (.dict kvs) = .ok w → ∃ res', w = .dict res' := by
    intro w hw
    have hw2 : (marshal_object_pairs recur ospec (.dict kvs) kvs).map Val.dict = .ok w := hw
    cases hp : marshal_object_pairs recur ospec (.dict kvs) kvs with
    | error e => rw [hp] at hw2; cases hw2
    | ok ws =>
      rw [hp] at hw2
      cases hw2
      exact ⟨ws, rfl⟩
  refine ⟨?_, rfl, hshape, ?_⟩
  · cases v <;> first | rfl | simp [is_dict_like] at hv
  · have hok2 : (marshal_object_pairs recur ospec (.dict kvs) kvs).map Val.dict =
        .ok (.dict res) := hok
    cases hp : marshal_object_pairs recur ospec (.dict kvs) kvs with
    | error e => rw [hp] at hok2; cases hok2
    | ok ws =>
      rw [hp] at hok2
      have hws : ws = res := by
        injection hok2 with h1
        injection h1 with h2
      subst hws
      exact fun k x hmem => marshal_object_pairs_mem hnd hp k x hmem

/-- The schema nodes of the C6 witness: one declared boolean property. -/
def c6_witness_pspec : SchemaObjectSpec :=
  .mk "boolean" Option.none Option.none false Option.none [] Option.none Option.none

def c6_witness_ospec : SchemaObjectSpec :=
  .mk "object" Option.none Option.none false Option.none [("seen", c6_witness_pspec)]
    Option.none Option.none

theorem c6_object_transform_witness :
    marshal_object (marshal_schema_object _formatters ⟨[]⟩ 1) c6_witness_ospec (.int 3) =
      .error (.expectedDictLike (.int 3)) ∧
    (PyErr.expectedDictLike (.int 3)).isSwaggerMappingError = true ∧
    (∀ w, marshal_object (marshal_schema_object _formatters ⟨[]⟩ 1) c6_witness_ospec
        (.dict [("seen", Val.none), ("extra", .str "x")]) = .ok w →
      ∃ res', w = .dict res') ∧
    (∀ k x, (k, x) ∈ [("seen", Val.none), ("extra", Val.str "x")] →
      (x = Val.none → ∀ w, (k, w) ∉ [("extra", Val.str "x")]) ∧
      (x ≠ Val.none →
        (∀ ps, get_spec_for_prop c6_witness_ospec
            (.dict [("seen", Val.none), ("extra", .str "x")]) k = some ps →
          ∃ w, marshal_schema_object _formatters ⟨[]⟩ 1 ps x = .ok w ∧
            (k, w) ∈ [("extra", Val.str "x")]) ∧
        (get_spec_for_prop c6_witness_ospec
            (.dict [("seen", Val.none), ("extra", .str "x")]) k = Option.none →
          (k, x) ∈ [("extra", Val.str "x")]))) :=
  c6_object_transform (marshal_schema_object _formatters ⟨[]⟩ 1) c6_witness_ospec
    (.int 3) rfl [("seen", Val.none), ("extra", .str "x")] [("extra", .str "x")]
    (by simp) rfl

/-- C7: the null-drop rule applies uniformly before any per-property
processing: a pair with an explicit null value is removed from the iteration
no matter what its resolved property spec says, so an object with a required
property set to null marshals successfully with the key absent — even though
the primitive sub-transform would raise the missing-required-value error for
that very spec. -/
theorem c7_null_dropped_before_required_check (fmts : Formatters)
    (recur : SchemaObjectSpec → Val → Except PyErr Val)
    (ospec : SchemaObjectSpec) (oval : Val) (k : String)
    (rest : List (String × Val)) (ps : SchemaObjectSpec)
    (_hps : get_spec_for_prop ospec oval k = some ps)
    (hreq : ps.required = true) (hnd : ps.default = Option.none) :
    marshal_object_pairs recur ospec oval ((k, Val.none) :: rest) =
      marshal_object_pairs recur ospec oval rest ∧
    marshal_object recur ospec (.dict [(k, Val.none)]) = .ok (.dict []) ∧
    marshal_primitive fmts ps Val.none = .error (.requiredValueMissing ps) := by
  refine ⟨rfl, rfl, ?_⟩
  rw [marshal_primitive_no_default fmts Val.none hnd]
  simp [isNone, hreq]

/-- The schema nodes of the C7 witness: a required, defaultless string
property whose value is an explicit null. -/
def c7_witness_pspec : SchemaObjectSpec :=
  .mk "string" Option.none Option.none true Option.none [] Option.none Option.none

def c7_witness_ospec : SchemaObjectSpec :=
  .mk "object" Option.none Option.none false Option.none [("name", c7_witness_pspec)]
    Option.none Option.none

theorem c7_null_dropped_before_required_check_witness :
    marshal_object_pairs (marshal_schema_object _formatters ⟨[]⟩ 1) c7_witness_ospec
        (.dict [("name", Val.none)]) [("name", Val.none)] =
      marshal_object_pairs (marshal_schema_object _formatters ⟨[]⟩ 1) c7_witness_ospec
        (.dict [("name", Val.none)]) [] ∧
    marshal_object (marshal_schema_object _formatters ⟨[]⟩ 1) c7_witness_ospec
        (.dict [("name", Val.none)]) = .ok (.dict []) ∧
    marshal_primitive _formatters c7_witness_pspec Val.none =
      .error (.requiredValueMissing c7_witness_pspec) :=
  c7_null_dropped_before_required_check _formatters
    (marshal_schema_object _formatters ⟨[]⟩ 1) c7_witness_ospec
    (.dict [("name", Val.none)]) "name" [] c7_witness_pspec rfl rfl rfl
/-! ### Claim C4: round-trips of the built-in format descriptors -/

theorem date_format_to_python_str (s : String) :
    date_format.to_python (.str s) =
      (match dateutilParse s.data with
       | some t => Except.ok (Val.date t.date)
       | Option.none => Except.error PyErr.otherError) := rfl

theorem datetime_format_to_python_str (s : String) :
    datetime_format.to_python (.str s) =
      (match dateutilParse s.data with
       | some t => Except.ok (Val.datetime t)
       | Option.none => Except.error PyErr.otherError) := rfl

/-- C4: for each built-in descriptor among byte, double, float, int32 and
int64, decoding the encoding of a value of the appropriate native type gives
the value back; for `date`, decode∘encode reconstructs an equal calendar
date, and for `date-time` an equal instant, offset included. -/
theorem c4_builtin_roundtrip (s : String) (q1 q2 : Rat) (n1 n2 : Int)
    (d : PyDate) (t : PyDateTime) (hd : validDate d) (ht : validDateTime t) :
    (byte_format.to_wire (.str s) >>= byte_format.to_python) = .ok (.str s) ∧
    (double_format.to_wire (.float q1) >>= double_format.to_python) = .ok (.float q1) ∧
    (float_format.to_wire (.float q2) >>= float_format.to_python) = .ok (.float q2) ∧
    (int32_format.to_wire (.int n1) >>= int32_format.to_python) = .ok (.int n1) ∧
    (int64_format.to_wire (.int n2) >>= int64_format.to_python) = .ok (.int n2) ∧
    (date_format.to_wire (.date d) >>= date_format.to_python) = .ok (.date d) ∧
    (datetime_format.to_wire (.datetime t) >>= datetime_format.to_python) =
      .ok (.datetime t) := by
  refine ⟨rfl, rfl, rfl, rfl, rfl, ?_, ?_⟩
  · show date_format.to_python (.str (isoformatDate d)) = .ok (.date d)
    rw [date_format_to_python_str,
      show (isoformatDate d).data = isoformatDateChars d from rfl,
      dateutilParse_isoformatDate hd]
    rfl
  · show datetime_format.to_python (.str (isoformatDateTime t)) = .ok (.datetime t)
    rw [datetime_format_to_python_str,
      show (isoformatDateTime t).data = isoformatDateTimeChars t from rfl,
      dateutilParse_isoformatDateTime ht]

/-- The aware datetime of the C4 witness: offset -05:30, nonzero
microseconds. -/
def c4_witness_datetime : PyDateTime :=
  ⟨2024, 3, 15, 23, 59, 58, 123456, some (-330)⟩

theorem c4_builtin_roundtrip_witness :
    (byte_format.to_wire (.str "a") >>= byte_format.to_python) = .ok (.str "a") ∧
    (double_format.to_wire (.float (1/2)) >>= double_format.to_python) = .ok (.float (1/2)) ∧
    (float_format.to_wire (.float (3/4)) >>= float_format.to_python) = .ok (.float (3/4)) ∧
    (int32_format.to_wire (.int (-3)) >>= int32_format.to_python) = .ok (.int (-3)) ∧
    (int64_format.to_wire (.int 123456789012345) >>= int64_format.to_python) =
      .ok (.int 123456789012345) ∧
    (date_format.to_wire (.date ⟨2024, 3, 15⟩) >>= date_format.to_python) =
      .ok (.date ⟨2024, 3, 15⟩) ∧
    (datetime_format.to_wire (.datetime c4_witness_datetime) >>=
        datetime_format.to_python) = .ok (.datetime c4_witness_datetime) :=
  c4_builtin_roundtrip "a" (1/2) (3/4) (-3) 123456789012345 ⟨2024, 3, 15⟩
    c4_witness_datetime (by decide) (by decide)

/-! ### Claim C9: dispatch precedence of the model marker -/

theorem marshal_model_marker (recur : SchemaObjectSpec → Val → Except PyErr Val)
    (sspec : SwaggerSpec) {mspec : SchemaObjectSpec} {marker : String}
    (hm : mspec.modelMarker = some marker) (v : Val) :
    marshal_model recur sspec mspec v =
      (match sspec.definitions.lookup marker with
       | Option.none => .error (.unknownModel marker)
       | some model_type =>
         match v with
         | .model className attrs =>
           if className == model_type then
             marshal_object recur mspec (.dict attrs)
           else
             .error (.modelTypeMismatch marker v)
         | u => .error (.modelTypeMismatch marker u)) := by
  unfold marshal_model
  rw [hm]

theorem marshal_model_unknown (recur : SchemaObjectSpec → Val → Except PyErr Val)
    (sspec : SwaggerSpec) {mspec : SchemaObjectSpec} {marker : String} (v : Val)
    (hm : mspec.modelMarker = some marker)
    (hl : sspec.definitions.lookup marker = Option.none) :
    marshal_model recur sspec mspec v = .error (.unknownModel marker) := by
  rw [marshal_model_marker recur sspec hm, hl]

theorem marshal_model_not_instance (recur : SchemaObjectSpec → Val → Except PyErr Val)
    (sspec : SwaggerSpec) {mspec : SchemaObjectSpec} {marker tyname : String} (v : Val)
    (hm : mspec.modelMarker = some marker)
    (hl : sspec.definitions.lookup marker = some tyname)
    (hinst : ∀ attrs, v ≠ .model tyname attrs) :
    marshal_model recur sspec mspec v = .error (.modelTypeMismatch marker v) := by
  rw [marshal_model_marker recur sspec hm, hl]
  cases v with
  | model cn attrs =>
    have hne : (cn == tyname) = false := by
      rw [beq_eq_false_iff_ne]
      intro he
      exact hinst attrs (by rw [he])
    show (if (cn == tyname) = true then marshal_object recur mspec (.dict attrs)
        else Except.error (.modelTypeMismatch marker (.model cn attrs))) =
      Except.error (.modelTypeMismatch marker (.model cn attrs))
    rw [hne, if_neg Bool.false_ne_true]
  | none => rfl
  | bool b => rfl
  | int n => rfl
  | float q => rfl
  | str s => rfl
  | list xs => rfl
  | dict kvs => rfl
  | date d => rfl
  | datetime t => rfl

theorem marshal_schema_object_model (fmts : Formatters) (sspec : SwaggerSpec) (fuel : Nat)
    {spec : SchemaObjectSpec} {marker : String} (hm : spec.modelMarker = some marker)
    (hprim : SWAGGER_PRIMITIVES.contains spec.type = false)
    (harr : (spec.type == "array") = false) (v : Val) :
    marshal_schema_object fmts sspec (fuel+1) spec v =
      if is_dict_like v then
        marshal_object (marshal_schema_object fmts sspec fuel) spec v
      else
        marshal_model (marshal_schema_object fmts sspec fuel) sspec spec v := by
  rw [marshal_schema_object_succ, if_neg (fun hc => Bool.false_ne_true (hprim ▸ hc)),
    if_neg (fun hc => Bool.false_ne_true (harr ▸ hc)), if_pos (by simp [is_model, hm])]

/-- The schema node and registry of the C9 counterexample: a model-marked
spec whose declared type is a primitive kind. -/
def c9_spec : SchemaObjectSpec :=
  .mk "integer" Option.none Option.none false Option.none [] Option.none (some "M")

def c9_swagger : SwaggerSpec := ⟨[("M", "M")]⟩

/-- C9 counterexample: a model-marked spec of type `integer` is dispatched to
the primitive sub-transform, not to the model handling — the dict-like value
passes through unchanged (null kept), while the duck-typed object transform
the claim mandates would have dropped the null key.  So the marker does not
route to model handling "regardless of the spec's type value". -/
theorem c9_counterexample :
    is_model c9_spec = true ∧
    marshal_schema_object _formatters c9_swagger 1 c9_spec (.dict [("a", Val.none)]) =
      .ok (.dict [("a", Val.none)]) ∧
    marshal_object (marshal_schema_object _formatters c9_swagger 0) c9_spec
      (.dict [("a", Val.none)]) = .ok (.dict []) ∧
    (Except.ok (Val.dict [("a", Val.none)]) : Except PyErr Val) ≠ .ok (.dict []) := by
  refine ⟨rfl, rfl, rfl, ?_⟩
  intro h
  injection h with h1
  injection h1 with h2
  cases h2

/-- C9 (amended): for every spec carrying a model marker whose declared type
is neither a primitive kind nor `array`, dispatch routes to the model
handling before the generic object branch regardless of the type value, and
splits on the runtime value: a mapping-like value is marshaled as a plain
object (duck-typed substitution, bypassing registry lookup and instance
check), any other value as a model instance — failing with a mapping error
when the model name is unregistered or the value is not an instance of the
resolved native type. -/
theorem c9_model_dispatch (fmts : Formatters) (sspec1 sspec2 sspec3 : SwaggerSpec)
    (fuel : Nat) (spec : SchemaObjectSpec) (v1 v2 v3 : Val) (marker tyname : String)
    (hm : spec.modelMarker = some marker)
    (hprim : SWAGGER_PRIMITIVES.contains spec.type = false)
    (harr : (spec.type == "array") = false)
    (hlook2 : sspec2.definitions.lookup marker = Option.none)
    (hv2 : is_dict_like v2 = false)
    (hlook3 : sspec3.definitions.lookup marker = some tyname)
    (hv3 : is_dict_like v3 = false)
    (hinst3 : ∀ attrs, v3 ≠ .model tyname attrs) :
    marshal_schema_object fmts sspec1 (fuel+1) spec v1 =
      (if is_dict_like v1 then
        marshal_object (marshal_schema_object fmts sspec1 fuel) spec v1
      else
        marshal_model (marshal_schema_object fmts sspec1 fuel) sspec1 spec v1) ∧
    marshal_schema_object fmts sspec2 (fuel+1) spec v2 = .error (.unknownModel marker) ∧
    marshal_schema_object fmts sspec3 (fuel+1) spec v3 =
      .error (.modelTypeMismatch marker v3) := by
  refine ⟨marshal_schema_object_model fmts sspec1 fuel hm hprim harr v1, ?_, ?_⟩
  · rw [marshal_schema_object_model fmts sspec2 fuel hm hprim harr v2, if_neg (by simp [hv2])]
    exact marshal_model_unknown _ sspec2 v2 hm hlook2
  · rw [marshal_schema_object_model fmts sspec3 fuel hm hprim harr v3, if_neg (by simp [hv3])]
    exact marshal_model_not_instance _ sspec3 v3 hm hlook3 hinst3

/-- The schema nodes of the C9 witness: a model-marked object spec, exercised
against a registry that knows the model, one that does not, and a value of
the wrong model class. -/
def c9_witness_spec : SchemaObjectSpec :=
  .mk "object" Option.none Option.none false Option.none [] Option.none (some "M")

theorem c9_model_dispatch_witness :
    marshal_schema_object _formatters c9_swagger 1 c9_witness_spec (.dict []) =
      (if is_dict_like (Val.dict []) then
        marshal_object (marshal_schema_object _formatters c9_swagger 0) c9_witness_spec
          (.dict [])
      else
        marshal_model (marshal_schema_object _formatters c9_swagger 0) c9_swagger
          c9_witness_spec (.dict [])) ∧
    marshal_schema_object _formatters ⟨[]⟩ 1 c9_witness_spec (.int 1) =
      .error (.unknownModel "M") ∧
    marshal_schema_object _formatters ⟨[("M", "MClass")]⟩ 1 c9_witness_spec
        (.model "Other" []) = .error (.modelTypeMismatch "M" (.model "Other" [])) :=
  c9_model_dispatch _formatters c9_swagger ⟨[]⟩ ⟨[("M", "MClass")]⟩ 0 c9_witness_spec
    (.dict []) (.int 1) (.model "Other" []) "M" "MClass" rfl rfl rfl rfl rfl rfl rfl
    (fun attrs h => by injection h with h1 h2; exact absurd h1 (by decide))

/-! ### Claim C8: the wire-value invariant -/

/-- A value built only from JSON-compatible primitives, null, sequences and
string-keyed mappings: no named-model instance and no non-JSON scalar (date,
datetime) at any position. -/
inductive JsonVal : Val → Prop where
  | none : JsonVal Val.none
  | bool (b : Bool) : JsonVal (.bool b)
  | int (n : Int) : JsonVal (.int n)
  | float (q : Rat) : JsonVal (.float q)
  | str (s : String) : JsonVal (.str s)
  | list (xs : List Val) (h : ∀ x ∈ xs, JsonVal x) : JsonVal (.list xs)
  | dict (kvs : List (String × Val)) (h : ∀ kv ∈ kvs, JsonVal kv.2) : JsonVal (.dict kvs)

/-- The invariant the spec claims for marshal output against a registry:
every node is a JSON primitive, the output of some registered descriptor's
encode function, or a sequence/mapping of such values. -/
inductive WireOk (fmts : Formatters) : Val → Prop where
  | none : WireOk fmts Val.none
  | bool (b : Bool) : WireOk fmts (.bool b)
  | int (n : Int) : WireOk fmts (.int n)
  | float (q : Rat) : WireOk fmts (.float q)
  | str (s : String) : WireOk fmts (.str s)
  | encoded (name : String) (d : SwaggerFormat) (u w : Val)
      (hl : fmts.lookup name = some d) (he : d.to_wire u = .ok w) : WireOk fmts w
  | list (xs : List Val) (h : ∀ x ∈ xs, WireOk fmts x) : WireOk fmts (.list xs)
  | dict (kvs : List (String × Val)) (h : ∀ kv ∈ kvs, WireOk fmts kv.2) :
      WireOk fmts (.dict kvs)

/-- A schema tree whose declared defaults are all JSON-clean ("defaults are
assumed already wire-shaped"), recursively through `items`, `properties` and
`additionalProperties`. -/
inductive CleanSpec : SchemaObjectSpec → Prop where
  | mk (t : String) (fo : Option String) (de : Option Val) (re : Bool)
      (it : Option SchemaObjectSpec) (pr : List (String × SchemaObjectSpec))
      (ap : Option SchemaObjectSpec) (mm : Option String)
      (hde : ∀ d, de = some d → JsonVal d)
      (hit : ∀ i, it = some i → CleanSpec i)
      (hpr : ∀ kp ∈ pr, CleanSpec kp.2)
      (hap : ∀ a, ap = some a → CleanSpec a) :
      CleanSpec (.mk t fo de re it pr ap mm)

theorem CleanSpec.default_json {spec : SchemaObjectSpec} {d : Val} (h : CleanSpec spec)
    (hd : spec.default = some d) : JsonVal d := by
  cases h with
  | mk t fo de re it pr ap mm hde hit hpr hap => exact hde d hd

theorem CleanSpec.items_clean {spec i : SchemaObjectSpec} (h : CleanSpec spec)
    (hi : spec.items = some i) : CleanSpec i := by
  cases h with
  | mk t fo de re it pr ap mm hde hit hpr hap => exact hit i hi

theorem CleanSpec.prop_clean {spec p : SchemaObjectSpec} {k : String} (h : CleanSpec spec)
    (hp : (k, p) ∈ spec.properties) : CleanSpec p := by
  cases h with
  | mk t fo de re it pr ap mm hde hit hpr hap => exact hpr (k, p) hp

theorem CleanSpec.addl_clean {spec a : SchemaObjectSpec} (h : CleanSpec spec)
    (ha : spec.additionalProperties = some a) : CleanSpec a := by
  cases h with
  | mk t fo de re it pr ap mm hde hit hpr hap => exact hap a ha

theorem lookup_mem {a b : Type} [BEq a] [LawfulBEq a] :
    ∀ {l : List (a × b)} {k : a} {x : b}, l.lookup k = some x → (k, x) ∈ l := by
  intro l
  induction l with
  | nil => intro k x h; cases h
  | cons kv rest ih =>
    intro k x h
    obtain ⟨k1, x1⟩ := kv
    simp only [List.lookup] at h
    cases hk : (k == k1) with
    | true =>
      rw [hk] at h
      cases h
      have : k = k1 := eq_of_beq hk
      subst this
      exact List.mem_cons_self _ _
    | false =>
      rw [hk] at h
      exact List.mem_cons_of_mem _ (ih h)

theorem get_spec_for_prop_clean {ospec ps : SchemaObjectSpec} {oval : Val} {k : String}
    (h : CleanSpec ospec) (hp : get_spec_for_prop ospec oval k = some ps) : CleanSpec ps := by
  unfold get_spec_for_prop at hp
  cases hl : ospec.properties.lookup k with
  | some p =>
    rw [hl] at hp
    cases hp
    exact h.prop_clean (lookup_mem hl)
  | none =>
    rw [hl] at hp
    exact h.addl_clean hp

theorem JsonVal.wireOk {v : Val} (h : JsonVal v) (fmts : Formatters) : WireOk fmts v := by
  induction h with
  | none => exact .none
  | bool b => exact .bool b
  | int n => exact .int n
  | float q => exact .float q
  | str s => exact .str s
  | list xs h ih => exact .list xs ih
  | dict kvs h ih => exact .dict kvs ih

theorem JsonVal.list_mem {xs : List Val} {x : Val} (h : JsonVal (.list xs)) (hx : x ∈ xs) :
    JsonVal x := by
  cases h with
  | list _ h2 => exact h2 x hx

theorem JsonVal.dict_mem {kvs : List (String × Val)} {kv : String × Val}
    (h : JsonVal (.dict kvs)) (hkv : kv ∈ kvs) : JsonVal kv.2 := by
  cases h with
  | dict _ h2 => exact h2 kv hkv

theorem to_wire_wireOk {fmts : Formatters} {spec : SchemaObjectSpec} {v w : Val}
    (hv : JsonVal v) (h : to_wire fmts spec v = .ok w) : WireOk fmts w := by
  unfold to_wire at h
  split at h
  · cases h
    exact hv.wireOk fmts
  · cases hf : (get_format fmts (get_spec_format spec)).1 with
    | none =>
      rw [hf] at h
      cases h
      exact hv.wireOk fmts
    | some f =>
      rw [hf] at h
      have hl : fmts.lookup (get_spec_format spec) = some f := by
        simpa [get_format] using hf
      exact .encoded (get_spec_format spec) f v w hl h

theorem marshal_primitive_wireOk {fmts : Formatters} {spec : SchemaObjectSpec} {v w : Val}
    (hs : CleanSpec spec) (hv : JsonVal v)
    (h : marshal_primitive fmts spec v = .ok w) : WireOk fmts w := by
  cases hd : spec.default with
  | some d =>
    cases hn : isNone v with
    | true =>
      rw [isNone_iff.mp hn, marshal_primitive_with_default fmts spec d hd] at h
      split at h
      · cases h
      · cases h
        exact (hs.default_json hd).wireOk fmts
    | false =>
      rw [marshal_primitive_not_none fmts spec hn] at h
      exact to_wire_wireOk hv h
  | none =>
    rw [marshal_primitive_no_default fmts v hd] at h
    split at h
    · cases h
    · exact to_wire_wireOk hv h

theorem marshal_array_elems_wireOk {fmts : Formatters}
    {recur : SchemaObjectSpec → Val → Except PyErr Val} {aspec : SchemaObjectSpec}
    (hrec : ∀ spec' v' w', CleanSpec spec' → JsonVal v' → recur spec' v' = .ok w' →
      WireOk fmts w')
    (hs : CleanSpec aspec) :
    ∀ {xs ws : List Val}, (∀ x ∈ xs, JsonVal x) →
      marshal_array_elems recur aspec xs = .ok ws → ∀ y ∈ ws, WireOk fmts y := by
  intro xs
  induction xs with
  | nil =>
    intro ws _ h y hy
    rw [marshal_array_elems_nil] at h
    cases h
    simp at hy
  | cons x xs ihx =>
    intro ws hxs h y hy
    cases hi : aspec.items with
    | none =>
      rw [marshal_array_elems_cons, hi] at h
      cases h
    | some ispec =>
      rw [marshal_array_elems_cons_items recur hi] at h
      cases hw : recur ispec x with
      | error e =>
        simp only [hw, exceptBind_err] at h
        cases h
      | ok w =>
        cases hws : marshal_array_elems recur aspec xs with
        | error e =>
          simp only [hw, hws, exceptBind_ok, exceptBind_err] at h
          cases h
        | ok ws2 =>
          simp only [hw, hws, exceptBind_ok] at h
          cases h
          rcases List.mem_cons.mp hy with hy | hy
          · subst hy
            exact hrec ispec x y (hs.items_clean hi) (hxs x (List.mem_cons_self _ _)) hw
          · exact ihx (fun u hu => hxs u (List.mem_cons_of_mem _ hu)) hws y hy

theorem marshal_array_wireOk {fmts : Formatters}
    {recur : SchemaObjectSpec → Val → Except PyErr Val} {aspec : SchemaObjectSpec}
    {v w : Val}
    (hrec : ∀ spec' v' w', CleanSpec spec' → JsonVal v' → recur spec' v' = .ok w' →
      WireOk fmts w')
    (hs : CleanSpec aspec) (hv : JsonVal v)
    (h : marshal_array recur aspec v = .ok w) : WireOk fmts w := by
  cases v with
  | list xs =>
    have h2 : (marshal_array_elems recur aspec xs).map Val.list = .ok w := h
    cases he : marshal_array_elems recur aspec xs with
    | error e =>
      rw [he] at h2
      cases h2
    | ok ws =>
      rw [he] at h2
      cases h2
      exact .list ws (marshal_array_elems_wireOk hrec hs (fun x hx => hv.list_mem hx) he)
  | none => cases h
  | bool b => cases h
  | int n => cases h
  | float q => cases h
  | str s => cases h
  | dict kvs => cases h
  | date d => cases h
  | datetime t => cases h
  | model cn attrs => cases h

theorem marshal_object_pairs_wireOk {fmts : Formatters}
    {recur : SchemaObjectSpec → Val → Except PyErr Val} {ospec : SchemaObjectSpec}
    {oval : Val}
    (hrec : ∀ spec' v' w', CleanSpec spec' → JsonVal v' → recur spec' v' = .ok w' →
      WireOk fmts w')
    (hs : CleanSpec ospec) :
    ∀ {kvs ws : List (String × Val)}, (∀ kv ∈ kvs, JsonVal kv.2) →
      marshal_object_pairs recur ospec oval kvs = .ok ws →
      ∀ p ∈ ws, WireOk fmts p.2 := by
  intro kvs
  induction kvs with
  | nil =>
    intro ws _ h p hp
    rw [marshal_object_pairs_nil] at h
    cases h
    simp at hp
  | cons kv rest ih =>
    intro ws hkvs h p hp
    obtain ⟨k, v⟩ := kv
    rw [marshal_object_pairs_cons] at h
    cases hn : isNone v with
    | true =>
      rw [hn, if_pos rfl] at h
      exact ih (fun u hu => hkvs u (List.mem_cons_of_mem _ hu)) h p hp
    | false =>
      rw [hn, if_neg Bool.false_ne_true] at h
      cases hps : get_spec_for_prop ospec oval k with
      | some ps =>
        rw [hps] at h
        cases hw : recur ps v with
        | error e =>
          simp only [hw, exceptBind_err] at h
          cases h
        | ok w =>
          cases hrest : marshal_object_pairs recur ospec oval rest with
          | error e =>
            simp only [hw, hrest, exceptBind_ok, exceptBind_err] at h
            cases h
          | ok ws2 =>
            simp only [hw, hrest, exceptBind_ok] at h
            cases h
            rcases List.mem_cons.mp hp with hp | hp
            · subst hp
              exact hrec ps v w (get_spec_for_prop_clean hs hps)
                (hkvs (k, v) (List.mem_cons_self _ _)) hw
            · exact ih (fun u hu => hkvs u (List.mem_cons_of_mem _ hu)) hrest p hp
      | none =>
        rw [hps] at h
        cases hrest : marshal_object_pairs recur ospec oval rest with
        | error e =>
          simp only [hrest, exceptBind_err] at h
          cases h
        | ok ws2 =>
          simp only [hrest, exceptBind_ok] at h
          cases h
          rcases List.mem_cons.mp hp with hp | hp
          · subst hp
            exact ((hkvs (k, v) (List.mem_cons_self _ _))).wireOk fmts
          · exact ih (fun u hu => hkvs u (List.mem_cons_of_mem _ hu)) hrest p hp

theorem marshal_object_wireOk {fmts : Formatters}
    {recur : SchemaObjectSpec → Val → Except PyErr Val} {ospec : SchemaObjectSpec}
    {v w : Val}
    (hrec : ∀ spec' v' w', CleanSpec spec' → JsonVal v' → recur spec' v' = .ok w' →
      WireOk fmts w')
    (hs : CleanSpec ospec) (hv : JsonVal v)
    (h : marshal_object recur ospec v = .ok w) : WireOk fmts w := by
  cases v with
  | dict kvs =>
    have h2 : (marshal_object_pairs recur ospec (.dict kvs) kvs).map Val.dict = .ok w := h
    cases he : marshal_object_pairs recur ospec (.dict kvs) kvs with
    | error e =>
      rw [he] at h2
      cases h2
    | ok ws =>
      rw [he] at h2
      cases h2
      exact .dict ws (marshal_object_pairs_wireOk hrec hs (fun kv hkv => hv.dict_mem hkv) he)
  | none => cases h
  | bool b => cases h
  | int n => cases h
  | float q => cases h
  | str s => cases h
  | list xs => cases h
  | date d => cases h
  | datetime t => cases h
  | model cn attrs => cases h

theorem marshal_model_wireOk {fmts : Formatters}
    {recur : SchemaObjectSpec → Val → Except PyErr Val} {sspec : SwaggerSpec}
    {mspec : SchemaObjectSpec} {v w : Val} (hv : JsonVal v)
    (h : marshal_model recur sspec mspec v = .ok w) : WireOk fmts w := by
  cases hm : mspec.modelMarker with
  | none =>
    unfold marshal_model at h
    rw [hm] at h
    cases h
  | some marker =>
    rw [marshal_model_marker recur sspec hm] at h
    cases hl : sspec.definitions.lookup marker with
    | none =>
      rw [hl] at h
      cases h
    | some ty =>
      rw [hl] at h
      cases v with
      | model cn attrs => exact absurd hv (fun hj => by cases hj)
      | none => cases h
      | bool b => cases h
      | int n => cases h
      | float q => cases h
      | str s => cases h
      | list xs => cases h
      | dict kvs => cases h
      | date d => cases h
      | datetime t => cases h

theorem marshal_schema_object_wireOk (fmts : Formatters) (sspec : SwaggerSpec) :
    ∀ (fuel : Nat) (spec : SchemaObjectSpec) (v w : Val), CleanSpec spec → JsonVal v →
      marshal_schema_object fmts sspec fuel spec v = .ok w → WireOk fmts w := by
  intro fuel
  induction fuel with
  | zero =>
    intro spec v w _ _ h
    cases h
  | succ n ih =>
    intro spec v w hs hv h
    rw [marshal_schema_object_succ] at h
    split at h
    · exact marshal_primitive_wireOk hs hv h
    · split at h
      · exact marshal_array_wireOk ih hs hv h
      · split at h
        · split at h
          · exact marshal_object_wireOk ih hs hv h
          · exact marshal_model_wireOk hv h
        · split at h
          · exact marshal_object_wireOk ih hs hv h
          · split at h
            · cases h
              exact hv.wireOk fmts
            · cases h

/-- The schema node of the C8 counterexample: a plain, format-less string
primitive. -/
def c8_spec : SchemaObjectSpec :=
  .mk "string" Option.none Option.none false Option.none [] Option.none Option.none

theorem builtin_to_wire_no_date {f : SwaggerFormat}
    (hf : f = byte_format ∨ f = date_format ∨ f = double_format ∨ f = datetime_format ∨
      f = float_format ∨ f = int32_format ∨ f = int64_format)
    (u : Val) (d : PyDate) : f.to_wire u ≠ .ok (.date d) := by
  rcases hf with h1|h1|h1|h1|h1|h1|h1 <;> subst h1 <;> intro h
  · cases u <;> simp [byte_format, isInstStr, pyStr] at h
  · cases u <;> simp [date_format] at h
  · cases u <;> simp [double_format, pyFloat, isInstFloat] at h
  · cases u <;> simp [datetime_format] at h
  · cases u <;> simp [float_format, pyFloat, isInstFloat] at h
  · cases u <;> simp [int32_format, pyInt, isInstInt] at h
  · cases u <;> simp [int64_format, pyInt, isInstInt] at h

/-- C8 counterexample: marshaling a calendar date against a plain string spec
succeeds and emits the date object itself — a leaf that is neither a JSON
primitive nor any built-in encoder's output — refuting the unconditional
invariant (the passthrough branches forward non-JSON leaves verbatim). -/
theorem c8_counterexample :
    marshal_schema_object _formatters ⟨[]⟩ 1 c8_spec (.date ⟨2024, 1, 1⟩) =
      .ok (.date ⟨2024, 1, 1⟩) ∧
    ¬WireOk _formatters (.date ⟨2024, 1, 1⟩) := by
  refine ⟨rfl, ?_⟩
  intro h
  cases h with
  | encoded name d u w hl he =>
    exact builtin_to_wire_no_date (lookup_formatters_mem hl) u _ he

/-- C8 (amended): for every schema whose declared defaults are JSON-clean and
every native value free of model instances and non-JSON scalars, a successful
marshal produces a wire value each of whose leaves is a JSON primitive or the
output of a registered format descriptor's encode function (and in particular
contains no named-model instance). -/
theorem c8_wire_invariant (fmts : Formatters) (sspec : SwaggerSpec) (fuel : Nat)
    (spec : SchemaObjectSpec) (v w : Val) (hs : CleanSpec spec) (hv : JsonVal v)
    (h : marshal_schema_object fmts sspec fuel spec v = .ok w) : WireOk fmts w :=
  marshal_schema_object_wireOk fmts sspec fuel spec v w hs hv h

theorem c8_wire_invariant_witness :
    CleanSpec c8_spec ∧ JsonVal (Val.str "x") ∧ WireOk _formatters (.str "x") := by
  have hs : CleanSpec c8_spec :=
    CleanSpec.mk _ _ _ _ _ _ _ _ (fun d hd => by cases hd) (fun i hi => by cases hi)
      (fun kp hkp => by cases hkp) (fun a ha => by cases ha)
  have hv : JsonVal (Val.str "x") := .str "x"
  exact ⟨hs, hv, c8_wire_invariant _formatters ⟨[]⟩ 1 c8_spec (.str "x") (.str "x") hs hv rfl⟩

end BravadoCore
